import Mathlib

/-!
Verification of `ast2c_convert.py`, a recursive AST-to-C source generator.

The input data model is a JSON-like tree: dictionaries with string keys in
insertion order, lists, strings, integers, and null.  `Node` embeds exactly
those values.
-/

set_option maxHeartbeats 1000000

namespace Ast2C

/-- A Python/JSON value as consumed by the converter: a dict (association
list in insertion order), a list, a string, an integer, or `None`. -/
inductive Node where
  | dict : List (String × Node) → Node
  | list : List Node → Node
  | str : String → Node
  | num : Int → Node
  | null : Node
deriving Repr

mutual

/-- Python `==` on the embedded values (structural equality). -/
def nodeEq : Node → Node → Bool
  | .dict a, .dict b => fieldsEq a b
  | .list a, .list b => itemsEq a b
  | .str a, .str b => a == b
  | .num a, .num b => a == b
  | .null, .null => true
  | _, _ => false

def fieldsEq : List (String × Node) → List (String × Node) → Bool
  | [], [] => true
  | (k, v) :: r, (k', v') :: r' => k == k' && nodeEq v v' && fieldsEq r r'
  | _, _ => false

def itemsEq : List Node → List Node → Bool
  | [], [] => true
  | v :: r, v' :: r' => nodeEq v v' && itemsEq r r'
  | _, _ => false

end

/-- Python `d.get(k)`: the first value stored under key `k`, if present. -/
def lookup : List (String × Node) → String → Option Node
  | [], _ => none
  | (k, v) :: rest, key => if k = key then some v else lookup rest key

/-- Python `d.get(k, default)`. -/
def lookupD (fs : List (String × Node)) (key : String) (d : Node) : Node :=
  (lookup fs key).getD d

/-- Python truthiness of a `Node` value: empty containers, the empty string,
zero and `None` are falsy. -/
def truthy : Node → Bool
  | .dict fs => !fs.isEmpty
  | .list xs => !xs.isEmpty
  | .str s => !(s = "")
  | .num n => !(n = 0)
  | .null => false

mutual

/-- Source lines 8-25 (`get_declname`): return the first truthy value stored
under a `declname` key anywhere in the tree, scanning a dict's own `declname`
entry first and then every field in insertion order; `None` (here `none`)
when there is no such value. -/
def get_declname : Node → Option Node
  | .dict fs =>
    match lookup fs "declname" with
    | some v => if truthy v then some v else get_declname_fields fs
    | none => get_declname_fields fs
  | .list xs => get_declname_items xs
  | _ => none

/-- The `for key, value in node.items()` loop of `get_declname`: first truthy
recursive result over the field values, in order. -/
def get_declname_fields : List (String × Node) → Option Node
  | [] => none
  | (_, v) :: rest =>
    match get_declname v with
    | some r => if truthy r then some r else get_declname_fields rest
    | none => get_declname_fields rest

/-- The `for item in node` loop of `get_declname` on a list node. -/
def get_declname_items : List Node → Option Node
  | [] => none
  | v :: rest =>
    match get_declname v with
    | some r => if truthy r then some r else get_declname_items rest
    | none => get_declname_items rest

end

example : get_declname (.dict [("_nodetype", .str "TypeDecl"),
    ("declname", .str "x")]) = some (.str "x") := rfl

example : get_declname (.dict [("a", .dict [("declname", .str "y")])]) =
    some (.str "y") := rfl

/-- Source lines 4-6 (`indent_str`): four spaces per indentation level. -/
def indent_str (level : Nat) : String := String.join (List.replicate level "    ")

/-- The whitespace characters Python `str.split()` separates on. -/
def isWs (c : Char) : Bool := c == ' ' || c == '\t' || c == '\n' || c == '\r'

/-- Helper for `pySplit`: walk the characters keeping the (reversed) current
token in `acc`, emitting a token at each whitespace run or at the end. -/
def splitWsAux : List Char → List Char → List String
  | [], acc => if acc.isEmpty then [] else [String.mk acc.reverse]
  | c :: cs, acc =>
    if isWs c then
      (if acc.isEmpty then [] else [String.mk acc.reverse]) ++ splitWsAux cs []
    else
      splitWsAux cs (c :: acc)

/-- Python `str.split()` with no argument: split on whitespace runs and drop
the empty pieces. -/
def pySplit (s : String) : List String := splitWsAux s.data []

/-- Python `str.endswith(";")`: the last character is a semicolon. -/
def endsSemi (s : String) : Bool :=
  match s.data.getLast? with
  | some c => c == ';'
  | none => false

/-- Python `s[:-1]`: drop the last character. -/
def dropLastChar (s : String) : String := String.mk s.data.dropLast

/-- A Python value used where `str` is required (string concatenation or
`str.join` elements).  A non-string raises `TypeError` in the source; that
failure is modelled as `none`. -/
def asStr : Node → Option String
  | .str s => some s
  | _ => none

/-- Python `for x in v`: a list yields its elements and a dict yields its
keys.  Iterating any other value raises `TypeError`, modelled as `none`
(a string, which Python would iterate character by character, is also
modelled as a failure; no claim concerns such a tree). -/
def pyElems : Node → Option (List Node)
  | .list xs => some xs
  | .dict fs => some (fs.map fun p => Node.str p.1)
  | _ => none

/-- Python `sep.join(v)`: joins the iterated elements, each of which must be
a string (`TypeError`, i.e. `none`, otherwise).  Used for
`" ".join(names)` on line 95, whose elements are taken raw, not rendered. -/
def pyJoinStrs (sep : String) : Node → Option String
  | .list xs => (xs.mapM asStr).map (String.intercalate sep)
  | .dict fs => some (String.intercalate sep (fs.map fun p => p.1))
  | .str s => some (String.intercalate sep (s.data.map fun c => String.singleton c))
  | _ => none

theorem sizeOf_list_pos (xs : List Node) : 1 ≤ sizeOf xs := by
  cases xs <;> simp <;> omega

theorem sizeOf_fields_pos (fs : List (String × Node)) : 1 ≤ sizeOf fs := by
  cases fs <;> simp <;> omega

theorem lookup_sizeOf {fs : List (String × Node)} {key : String} {v : Node}
    (h : lookup fs key = some v) : sizeOf v < 1 + sizeOf fs := by
  induction fs with
  | nil => simp [lookup] at h
  | cons p rest ih =>
    obtain ⟨k, w⟩ := p
    simp only [lookup] at h
    by_cases hk : k = key
    · simp [hk] at h
      subst h
      simp
      omega
    · simp [hk] at h
      have := ih h
      simp at this ⊢
      omega

theorem lookupD_null_sizeOf (fs : List (String × Node)) (key : String) :
    sizeOf (lookupD fs key Node.null) < 1 + sizeOf fs := by
  unfold lookupD
  cases h : lookup fs key with
  | none =>
    have := sizeOf_fields_pos fs
    simp
    omega
  | some v =>
    simpa using lookup_sizeOf h

theorem lookupD_nil_sizeOf (fs : List (String × Node)) (key : String) :
    sizeOf (lookupD fs key (Node.list [])) ≤ 1 + sizeOf fs := by
  unfold lookupD
  cases h : lookup fs key with
  | none =>
    have := sizeOf_fields_pos fs
    simp
    omega
  | some v =>
    have := lookup_sizeOf h
    simp at this ⊢
    omega

theorem lookup_strict_sizeOf {fs : List (String × Node)} {key : String}
    {v : Node} (h : lookup fs key = some v) : sizeOf v < sizeOf fs := by
  induction fs with
  | nil => simp [lookup] at h
  | cons p rest ih =>
    obtain ⟨k, w⟩ := p
    simp only [lookup] at h
    by_cases hk : k = key
    · simp [hk] at h
      subst h
      simp
      omega
    · simp [hk] at h
      have := ih h
      simp
      omega

theorem lookup_opt_sizeOf (fs : List (String × Node)) (key : String) :
    sizeOf (lookup fs key) < 1 + sizeOf fs := by
  cases h : lookup fs key with
  | none =>
    have := sizeOf_fields_pos fs
    simp
    omega
  | some v =>
    have := lookup_strict_sizeOf h
    simp
    omega

theorem sizeOf_keys (fs : List (String × Node)) :
    sizeOf (fs.map fun p => Node.str p.1) < 1 + sizeOf fs := by
  induction fs with
  | nil => simp
  | cons p rest ih =>
    obtain ⟨k, w⟩ := p
    have hw : 1 ≤ sizeOf w := by cases w <;> simp <;> omega
    simp at ih ⊢
    omega

theorem pyElems_sizeOf {v : Node} {xs : List Node} (h : pyElems v = some xs) :
    sizeOf xs < sizeOf v := by
  cases v with
  | list l =>
    simp [pyElems] at h
    subst h
    simp
  | dict fs =>
    simp [pyElems] at h
    subst h
    have := sizeOf_keys fs
    simp
    omega
  | str s => simp [pyElems] at h
  | num n => simp [pyElems] at h
  | null => simp [pyElems] at h

/-- `True` for a dict value. -/
def isDict : Node → Bool
  | .dict _ => true
  | _ => false

/-- `True` for a string value. -/
def isStrNode : Node → Bool
  | .str _ => true
  | _ => false

/-- Source lines 52-56, factored: the signature text of a function
declarator — `ret_type(params)` when the last whitespace token of the
return-type rendering equals the declaration's raw `name` value, otherwise
`ret_type name(params)`; a non-string name reaching the concatenation is a
`TypeError` (`none`). -/
def declSig (ret_type : String) (fn_name : Node) (params_code : String) :
    Option String :=
  if (match (pySplit ret_type).getLast? with
      | some t => nodeEq (.str t) fn_name
      | none => false) then
    some (ret_type ++ "(" ++ params_code ++ ")")
  else
    (asStr fn_name).map fun s => ret_type ++ " " ++ s ++ "(" ++ params_code ++ ")"

/-- Source lines 63-70, factored: append the declaration's own `name` to the
rendered type unless the name is falsy or the type's resolved declared name
already equals it. -/
def declNameAppend (fs : List (String × Node)) (type_code : String) :
    Option String :=
  let name := lookupD fs "name" (.str "")
  let code0 := if type_code = "" then "" else type_code
  if truthy name &&
      (match get_declname (lookupD fs "type" Node.null) with
       | none => true
       | some v => !nodeEq v name) then
    match name with
    | .str s => some (code0 ++ " " ++ s)
    | _ => none
  else some code0

mutual

/-- Source lines 27-176 (`generate_code`): recursively turn an AST node into
C source text.  Dispatch is on the node's `_nodetype` tag; string results
model the Python return values, and `none` models a dynamic failure
(`TypeError`/`AttributeError`) or a non-string value reaching a position
that Python would consume as text. -/
def generate_code : Node → Nat → Bool → Option String
  | .dict fs, level, in_param =>
    match lookupD fs "_nodetype" (.str "") with
    | .str tag =>
      if tag = "FileAST" then
        -- lines 33-35: join the renderings of `ext` with blank lines
        match hex : lookup fs "ext" with
        | none => some ""
        | some ext =>
          match h1 : pyElems ext with
          | none => none
          | some xs =>
            match genEach xs level false with
            | none => none
            | some rs => some (String.intercalate "\n\n" rs)
      else if tag = "Decl" then
        -- lines 37-74; the test on line 40 is
        -- `if type_node and type_node.get('_nodetype') == 'FuncDecl':`,
        -- an AttributeError when `type` is truthy but not a dict
        match h3 : lookupD fs "type" Node.null with
        | .dict tfs =>
          if truthy (.dict tfs)
              && nodeEq (lookupD tfs "_nodetype" (.str "")) (.str "FuncDecl") then
            -- lines 40-60: function declarator
            match generate_code (lookupD tfs "type" Node.null) level in_param with
            | none => none
            | some ret_type =>
              match funcParamsCode (lookupD tfs "args" Node.null) level with
              | none => none
              | some params_code =>
                match declSig ret_type (lookupD fs "name" (.str "")) params_code with
                | none => none
                | some sig =>
                  match initSuffix (lookup fs "init") level with
                  | none => none
                  | some sfx =>
                    some (if in_param then sig ++ sfx
                          else indent_str level ++ (sig ++ sfx))
          else
            -- lines 61-74: ordinary declaration (a falsy dict `type` takes
            -- this branch too, since `type_node and ...` is then falsy)
            match generate_code (.dict tfs) level in_param with
            | none => none
            | some type_code =>
              match declNameAppend fs type_code with
              | none => none
              | some code1 =>
                match initSuffix (lookup fs "init") level with
                | none => none
                | some sfx =>
                  some (if in_param then code1 ++ sfx
                        else indent_str level ++ (code1 ++ sfx))
        | t =>
          if truthy t then
            none   -- AttributeError: `.get` on a truthy non-dict `type`
          else
            -- lines 61-74 again: the source reaches the same else branch
            match generate_code t level in_param with
            | none => none
            | some type_code =>
              match declNameAppend fs type_code with
              | none => none
              | some code1 =>
                match initSuffix (lookup fs "init") level with
                | none => none
                | some sfx =>
                  some (if in_param then code1 ++ sfx
                        else indent_str level ++ (code1 ++ sfx))
      else if tag = "FuncDef" then
        -- lines 76-81
        match generate_code (lookupD fs "decl" Node.null) level false with
        | none => none
        | some decl_code =>
          match generate_code (lookupD fs "body" Node.null) level false with
          | none => none
          | some body_code =>
            some ((if endsSemi decl_code then dropLastChar decl_code
                   else decl_code) ++ " " ++ body_code)
      else if tag = "FuncDecl" then
        -- lines 83-84: a function declarator visited directly renders as ""
        some ""
      else if tag = "TypeDecl" then
        -- lines 86-91
        match generate_code (lookupD fs "type" Node.null) level in_param with
        | none => none
        | some inner =>
          if truthy (lookupD fs "declname" Node.null) then
            match lookupD fs "declname" Node.null with
            | .str s => some (inner ++ " " ++ s)
            | _ => none   -- TypeError: concatenating a non-string declname
          else some inner
      else if tag = "IdentifierType" then
        -- lines 93-95
        pyJoinStrs " " (lookupD fs "names" (.list []))
      else if tag = "PtrDecl" then
        -- lines 97-99
        match generate_code (lookupD fs "type" Node.null) level in_param with
        | none => none
        | some inner => some (inner ++ " *")
      else if tag = "Typename" then
        -- lines 101-102
        generate_code (lookupD fs "type" Node.null) level in_param
      else if tag = "Compound" then
        -- lines 104-110
        match h6 : (if truthy (lookupD fs "block_items" Node.null) then
            pyElems (lookupD fs "block_items" Node.null) else some []) with
        | none => none
        | some block_items =>
          match genEach block_items (level + 1) false with
          | none => none
          | some rs =>
            some (String.intercalate "\n"
              ((indent_str level ++ "\x7b") :: rs ++ [indent_str level ++ "\x7d"]))
      else if tag = "Return" then
        -- lines 112-117
        if truthy (lookupD fs "expr" Node.null) then
          match generate_code (lookupD fs "expr" Node.null) level false with
          | none => none
          | some e => some (indent_str level ++ "return " ++ e ++ ";")
        else some (indent_str level ++ "return;")
      else if tag = "FuncCall" then
        -- lines 119-125
        match generate_code (lookupD fs "name" Node.null) level in_param with
        | none => none
        | some name_code =>
          match funcCallArgsOf (lookupD fs "args" Node.null) level with
          | none => none
          | some args => some (name_code ++ "(" ++ args ++ ")")
      else if tag = "Assignment" then
        -- lines 127-131
        match generate_code (lookupD fs "lvalue" Node.null) level in_param with
        | none => none
        | some lvalue =>
          match generate_code (lookupD fs "rvalue" Node.null) level in_param with
          | none => none
          | some rvalue =>
            match asStr (lookupD fs "op" (.str "=")) with
            | none => none   -- TypeError: concatenating a non-string op
            | some op =>
              some (indent_str level ++ lvalue ++ " " ++ op ++ " " ++ rvalue ++ ";")
      else if tag = "BinaryOp" then
        -- lines 133-137
        match generate_code (lookupD fs "left" Node.null) level in_param with
        | none => none
        | some left =>
          match generate_code (lookupD fs "right" Node.null) level in_param with
          | none => none
          | some right =>
            match asStr (lookupD fs "op" (.str "")) with
            | none => none   -- TypeError: concatenating a non-string op
            | some op => some ("(" ++ left ++ " " ++ op ++ " " ++ right ++ ")")
      else if tag = "ID" then
        -- lines 139-140: the raw `name` value is returned; a non-string is a
        -- non-string result (or a TypeError at the consumer), modelled as `none`
        asStr (lookupD fs "name" (.str ""))
      else if tag = "Constant" then
        -- lines 142-143, with the same convention as `ID`
        asStr (lookupD fs "value" (.str ""))
      else if tag = "If" then
        -- lines 145-152
        match generate_code (lookupD fs "cond" Node.null) level in_param with
        | none => none
        | some cond =>
          match generate_code (lookupD fs "iftrue" Node.null) level in_param with
          | none => none
          | some iftrue =>
            if truthy (lookupD fs "iffalse" Node.null) then
              match generate_code (lookupD fs "iffalse" Node.null) level in_param with
              | none => none
              | some e =>
                some (indent_str level ++ "if (" ++ cond ++ ") " ++ iftrue
                  ++ " else " ++ e)
            else some (indent_str level ++ "if (" ++ cond ++ ") " ++ iftrue)
      else if tag = "While" then
        -- lines 154-157
        match generate_code (lookupD fs "cond" Node.null) level in_param with
        | none => none
        | some cond =>
          match generate_code (lookupD fs "stmt" Node.null) level in_param with
          | none => none
          | some stmt => some (indent_str level ++ "while (" ++ cond ++ ") " ++ stmt)
      else if tag = "ArrayRef" then
        -- lines 159-162
        match generate_code (lookupD fs "name" Node.null) level in_param with
        | none => none
        | some arr =>
          match generate_code (lookupD fs "subscript" Node.null) level in_param with
          | none => none
          | some sub => some (arr ++ "[" ++ sub ++ "]")
      else
        -- lines 164-172: generic fallback over the children
        genFields fs level in_param
    | _ =>
      -- a non-string `_nodetype` matches no dispatch case (lines 164-172)
      genFields fs level in_param
  | .list xs, level, in_param =>
    -- lines 173-174: a bare list joins its elements' renderings with newlines
    match genEach xs level in_param with
    | none => none
    | some rs => some (String.intercalate "\n" rs)
  | .str s, _, _ => some s                -- line 176: `str` of a string
  | .num n, _, _ => some (toString n)     -- line 176: `str` of an integer
  | .null, _, _ => some "None"            -- line 176: `str(None)`
termination_by n _ _ => sizeOf n
decreasing_by
  all_goals simp_wf
  all_goals first
    | apply lookupD_null_sizeOf
    | (simp; omega)
    | (have a := pyElems_sizeOf h1
       have b := lookup_sizeOf hex
       omega)
    | (have a := lookupD_null_sizeOf tfs "type"
       have b := lookupD_null_sizeOf fs "type"
       rw [h3] at b
       simp at b
       omega)
    | (have a := lookupD_null_sizeOf tfs "args"
       have b := lookupD_null_sizeOf fs "type"
       rw [h3] at b
       simp at b
       omega)
    | (have b := lookupD_null_sizeOf fs "type"
       rw [h3] at b
       omega)
    | (have a := lookup_opt_sizeOf fs "init"
       omega)
    | (split at h6 <;>
        first
        | (have a := pyElems_sizeOf h6
           have b := lookupD_null_sizeOf fs "block_items"
           omega)
        | (cases h6
           have hb := sizeOf_fields_pos fs
           simp
           omega))

/-- A Python comprehension `[generate_code(x, level, in_param) for x in xs]`,
failing when any element fails. -/
def genEach : List Node → Nat → Bool → Option (List String)
  | [], _, _ => some []
  | x :: rest, level, in_param =>
    match generate_code x level in_param with
    | none => none
    | some s =>
      match genEach rest level in_param with
      | none => none
      | some rs => some (s :: rs)
termination_by xs _ _ => sizeOf xs
decreasing_by
  all_goals simp_wf
  all_goals omega

/-- Source lines 164-172: the fallback loop `for key, value in node.items()`,
concatenating the rendering of every dict-valued field and every element of
every list-valued field, and skipping primitives. -/
def genFields : List (String × Node) → Nat → Bool → Option String
  | [], _, _ => some ""
  | (_, .dict dfs) :: rest, level, in_param =>
    match generate_code (.dict dfs) level in_param with
    | none => none
    | some s =>
      match genFields rest level in_param with
      | none => none
      | some r => some (s ++ r)
  | (_, .list xs) :: rest, level, in_param =>
    match genEach xs level in_param with
    | none => none
    | some ss =>
      match genFields rest level in_param with
      | none => none
      | some r => some (String.join ss ++ r)
  | (_, .str _) :: rest, level, in_param => genFields rest level in_param
  | (_, .num _) :: rest, level, in_param => genFields rest level in_param
  | (_, .null) :: rest, level, in_param => genFields rest level in_param
termination_by fs _ _ => sizeOf fs
decreasing_by
  all_goals simp_wf
  all_goals omega

/-- Source lines 43-50: the parameter list of a function declarator, from its
`args` child: the comma-joined parameter renderings (each in parameter
context), with `"void"` substituted when `args` is falsy or the joined text
is empty. -/
def funcParamsCode : Node → Nat → Option String
  | .dict afs, level =>
    if truthy (Node.dict afs) then
      match h10 : pyElems (lookupD afs "params" (.list [])) with
      | none => none
      | some params =>
        match genEach params level true with
        | none => none
        | some rs =>
          let params_code := String.intercalate ", " rs
          some (if params_code = "" then "void" else params_code)
    else some "void"
  | .list xs, _ =>
    -- AttributeError on a truthy non-dict `args` (`.get` does not exist)
    if truthy (Node.list xs) then none else some "void"
  | .str s, _ => if truthy (Node.str s) then none else some "void"
  | .num n, _ => if truthy (Node.num n) then none else some "void"
  | .null, _ => some "void"
termination_by a _ => sizeOf a
decreasing_by
  all_goals simp_wf
  all_goals (have a := pyElems_sizeOf h10
             have b := lookupD_nil_sizeOf afs "params"
             omega)

/-- Source lines 119-125, the argument-list part of a `FuncCall`: `""` when
`args` is falsy, else the comma-joined renderings of `args["exprs"]`; a
truthy non-dict `args` raises `AttributeError` at `node['args'].get`. -/
def funcCallArgsOf : Node → Nat → Option String
  | .dict afs, level =>
    if truthy (Node.dict afs) then
      match h11 : pyElems (lookupD afs "exprs" (.list [])) with
      | none => none
      | some xs =>
        match genEach xs level false with
        | none => none
        | some rs => some (String.intercalate ", " rs)
    else some ""
  | .list xs, _ => if truthy (Node.list xs) then none else some ""
  | .str s, _ => if truthy (Node.str s) then none else some ""
  | .num n, _ => if truthy (Node.num n) then none else some ""
  | .null, _ => some ""
termination_by a _ => sizeOf a
decreasing_by
  all_goals simp_wf
  all_goals (have a := pyElems_sizeOf h11
             have b := lookupD_nil_sizeOf afs "exprs"
             omega)

/-- Source lines 57-59 and 71-72: the `" = " + generate_code(init, level)`
suffix a declaration gains when its `init` field is present and not null
(`if init is not None`), from the looked-up `init` value. -/
def initSuffix : Option Node → Nat → Option String
  | some iv, level =>
    if nodeEq iv Node.null then some ""
    else
      match generate_code iv level false with
      | none => none
      | some i => some (" = " ++ i)
  | none, _ => some ""
termination_by o _ => sizeOf o
decreasing_by
  all_goals simp_wf
  all_goals omega

end

/-- `pre` is a prefix of `l`, character by character. -/
def listStartsWith : List Char → List Char → Bool
  | _, [] => true
  | [], _ :: _ => false
  | c :: cs, d :: ds => c == d && listStartsWith cs ds

/-- `sub` occurs as a contiguous sublist of `l`. -/
def listContainsSub : List Char → List Char → Bool
  | [], sub => sub.isEmpty
  | c :: cs, sub => listStartsWith (c :: cs) sub || listContainsSub cs sub

/-- `True` when `sub` occurs somewhere in `s`. -/
def containsSub (s sub : String) : Bool := listContainsSub s.data sub.data

/-- `pre` is a prefix of `s`. -/
def strStartsWith (s pre : String) : Bool := listStartsWith s.data pre.data

/-- The number of positions of `l` at which `sub` starts. -/
def listCountSub : List Char → List Char → Nat
  | [], _ => 0
  | c :: cs, sub =>
    (if listStartsWith (c :: cs) sub then 1 else 0) + listCountSub cs sub

/-- The number of occurrences of `sub` in `s` (counting each start position). -/
def countSub (s sub : String) : Nat := listCountSub s.data sub.data

/-- The tags handled by a dedicated dispatch branch (source lines 33-162). -/
def handledTags : List String :=
  ["FileAST", "Decl", "FuncDef", "FuncDecl", "TypeDecl", "IdentifierType",
   "PtrDecl", "Typename", "Compound", "Return", "FuncCall", "Assignment",
   "BinaryOp", "ID", "Constant", "If", "While", "ArrayRef"]

/-- The `IdentifierType` leaf for `int`. -/
def itIntF : List (String × Node) :=
  [("_nodetype", .str "IdentifierType"), ("names", .list [.str "int"])]

/-- The node over `itIntF`. -/
def itInt : Node := .dict itIntF

/-- The `IdentifierType` leaf for `char`. -/
def itCharF : List (String × Node) :=
  [("_nodetype", .str "IdentifierType"), ("names", .list [.str "char"])]

/-- The node over `itCharF`. -/
def itChar : Node := .dict itCharF

/-- `TypeDecl` with declname `x` over `int`. -/
def tdXF : List (String × Node) :=
  [("_nodetype", .str "TypeDecl"), ("declname", .str "x"), ("type", itInt)]

/-- The node over `tdXF`. -/
def tdX : Node := .dict tdXF

/-- The tree pycparser produces for the declaration `int x;`:
`Decl` named `x` over `TypeDecl` (declname `x`) over `IdentifierType int`. -/
def intXDeclF : List (String × Node) :=
  [("_nodetype", .str "Decl"), ("name", .str "x"), ("type", tdX)]

/-- The node over `intXDeclF`. -/
def intXDecl : Node := .dict intXDeclF

/-- `TypeDecl` with declname `name` over `char`. -/
def tdNameF : List (String × Node) :=
  [("_nodetype", .str "TypeDecl"), ("declname", .str "name"),
         ("type", itChar)]

/-- The node over `tdNameF`. -/
def tdName : Node := .dict tdNameF

/-- `PtrDecl` over `TypeDecl name`. -/
def ptrNameF : List (String × Node) :=
  [("_nodetype", .str "PtrDecl"), ("type", tdName)]

/-- The node over `ptrNameF`. -/
def ptrName : Node := .dict ptrNameF

/-- The tree for `char *name;`: `Decl` named `name` over `PtrDecl` over
`TypeDecl` (declname `name`) over `IdentifierType char`. -/
def charPtrNameDeclF : List (String × Node) :=
  [("_nodetype", .str "Decl"), ("name", .str "name"), ("type", ptrName)]

/-- The node over `charPtrNameDeclF`. -/
def charPtrNameDecl : Node := .dict charPtrNameDeclF

/-- `TypeDecl` with declname `a` over `int`. -/
def tdAF : List (String × Node) :=
  [("_nodetype", .str "TypeDecl"), ("declname", .str "a"), ("type", itInt)]

/-- The node over `tdAF`. -/
def tdA : Node := .dict tdAF

/-- `TypeDecl` with declname `b` over `int`. -/
def tdBF : List (String × Node) :=
  [("_nodetype", .str "TypeDecl"), ("declname", .str "b"), ("type", itInt)]

/-- The node over `tdBF`. -/
def tdB : Node := .dict tdBF

/-- A parameter declaration `int a` as pycparser represents it. -/
def paramIntAF : List (String × Node) :=
  [("_nodetype", .str "Decl"), ("name", .str "a"), ("type", tdA)]

/-- The node over `paramIntAF`. -/
def paramIntA : Node := .dict paramIntAF

/-- A parameter declaration `int b`. -/
def paramIntBF : List (String × Node) :=
  [("_nodetype", .str "Decl"), ("name", .str "b"), ("type", tdB)]

/-- The node over `paramIntBF`. -/
def paramIntB : Node := .dict paramIntBF

/-- The `ParamList` holding `int a, int b`. -/
def addParamsF : List (String × Node) :=
  [("_nodetype", .str "ParamList"),
         ("params", .list [paramIntA, paramIntB])]

/-- The node over `addParamsF`. -/
def addParams : Node := .dict addParamsF

/-- `TypeDecl` with declname `add` over `int`. -/
def tdAddF : List (String × Node) :=
  [("_nodetype", .str "TypeDecl"), ("declname", .str "add"),
         ("type", itInt)]

/-- The node over `tdAddF`. -/
def tdAdd : Node := .dict tdAddF

/-- The `FuncDecl` for `int add(int a, int b)`. -/
def addFnDeclF : List (String × Node) :=
  [("_nodetype", .str "FuncDecl"), ("args", addParams), ("type", tdAdd)]

/-- The node over `addFnDeclF`. -/
def addFnDecl : Node := .dict addFnDeclF

/-- The declaration part of the `add` function definition. -/
def addDeclF : List (String × Node) :=
  [("_nodetype", .str "Decl"), ("name", .str "add"), ("type", addFnDecl)]

/-- The node over `addDeclF`. -/
def addDecl : Node := .dict addDeclF

/-- An empty compound block. -/
def emptyBodyF : List (String × Node) :=
  [("_nodetype", .str "Compound"), ("block_items", .list [])]

/-- The node over `emptyBodyF`. -/
def emptyBody : Node := .dict emptyBodyF

/-- The tree for `int add(int a, int b)` with an empty compound body. -/
def addFuncDefF : List (String × Node) :=
  [("_nodetype", .str "FuncDef"), ("decl", addDecl), ("body", emptyBody)]

/-- The node over `addFuncDefF`. -/
def addFuncDef : Node := .dict addFuncDefF

/-- A well-formed `Decl` node whose `type` field is the primitive string
`"int"`: line 40 of the source calls `.get` on it and raises
`AttributeError`. -/
def declBadTypeF : List (String × Node) :=
  [("_nodetype", .str "Decl"), ("name", .str "x"), ("type", .str "int")]

/-- The node over `declBadTypeF`. -/
def declBadType : Node := .dict declBadTypeF

/-- `TypeDecl` with declname `f` over `int`. -/
def tdFF : List (String × Node) :=
  [("_nodetype", .str "TypeDecl"), ("declname", .str "f"), ("type", itInt)]

/-- The node over `tdFF`. -/
def tdF : Node := .dict tdFF

/-- The `FuncDecl` for `int f(void)` (null `args`). -/
def fFnDeclF : List (String × Node) :=
  [("_nodetype", .str "FuncDecl"), ("args", Node.null), ("type", tdF)]

/-- The node over `fFnDeclF`. -/
def fFnDecl : Node := .dict fFnDeclF

/-- The identifier reference `g`. -/
def idGF : List (String × Node) := [("_nodetype", .str "ID"), ("name", .str "g")]

/-- The node over `idGF`. -/
def idG : Node := .dict idGF

/-- The zero-argument call `g()`. -/
def callGF : List (String × Node) := [("_nodetype", .str "FuncCall"), ("name", idG)]

/-- The node over `callGF`. -/
def callG : Node := .dict callGF

/-- A zero-parameter function declaration `int f(void)` whose initializer is
the zero-argument call `g()`. -/
def voidFnInitDeclF : List (String × Node) :=
  [("_nodetype", .str "Decl"), ("name", .str "f"), ("type", fFnDecl),
         ("init", callG)]

/-- The node over `voidFnInitDeclF`. -/
def voidFnInitDecl : Node := .dict voidFnInitDeclF

/-- The identifier reference `f`. -/
def idFF : List (String × Node) := [("_nodetype", .str "ID"), ("name", .str "f")]

/-- The node over `idFF`. -/
def idF : Node := .dict idFF

/-- The zero-argument call `f()`. -/
def callFF : List (String × Node) := [("_nodetype", .str "FuncCall"), ("name", idF)]

/-- The node over `callFF`. -/
def callF : Node := .dict callFF

/-- A compound block whose single statement is the call `f()`. -/
def compCallBlockF : List (String × Node) :=
  [("_nodetype", .str "Compound"), ("block_items", .list [callF])]

/-- The node over `compCallBlockF`. -/
def compCallBlock : Node := .dict compCallBlockF

/-- The identifier reference `x`. -/
def idXF : List (String × Node) := [("_nodetype", .str "ID"), ("name", .str "x")]

/-- The node over `idXF`. -/
def idX : Node := .dict idXF

/-- An `If` node with a `iftrue` branch but no `cond` field at all. -/
def ifNoCondF : List (String × Node) :=
  [("_nodetype", .str "If"), ("iftrue", idX)]

/-- The node over `ifNoCondF`. -/
def ifNoCond : Node := .dict ifNoCondF

/-- A bare `return;` statement: a `Return` node with no `expr` field. -/
def retNoExprF : List (String × Node) := [("_nodetype", .str "Return")]

/-- The node over `retNoExprF`. -/
def retNoExpr : Node := .dict retNoExprF

/-- An unrecognized-tag wrapper holding the single recognized child `idG`. -/
def customWrapF : List (String × Node) :=
  [("_nodetype", .str "CustomAttr"), ("child", idG)]

/-- The node over `customWrapF`. -/
def customWrap : Node := .dict customWrapF

theorem gen_str (s : String) (lv : Nat) (inp : Bool) :
    generate_code (.str s) lv inp = some s := by
  rw [generate_code]

theorem gen_num (n : Int) (lv : Nat) (inp : Bool) :
    generate_code (.num n) lv inp = some (toString n) := by
  rw [generate_code]

theorem gen_null (lv : Nat) (inp : Bool) :
    generate_code Node.null lv inp = some "None" := by
  rw [generate_code]

theorem gen_list (xs : List Node) (lv : Nat) (inp : Bool) :
    generate_code (.list xs) lv inp =
      (genEach xs lv inp).map (String.intercalate "\n") := by
  rw [generate_code]
  cases h : genEach xs lv inp <;> simp

theorem genEach_nil (lv : Nat) (inp : Bool) : genEach [] lv inp = some [] := by
  rw [genEach]

theorem genEach_cons (x : Node) (rest : List Node) (lv : Nat) (inp : Bool) :
    genEach (x :: rest) lv inp =
      (generate_code x lv inp).bind fun s =>
        (genEach rest lv inp).map fun rs => s :: rs := by
  rw [genEach]
  cases h : generate_code x lv inp
  · rfl
  · cases h2 : genEach rest lv inp <;> rfl

theorem genFields_nil (lv : Nat) (inp : Bool) : genFields [] lv inp = some "" := by
  rw [genFields]

theorem genFields_cons_dict (k : String) (dfs : List (String × Node))
    (rest : List (String × Node)) (lv : Nat) (inp : Bool) :
    genFields ((k, .dict dfs) :: rest) lv inp =
      (generate_code (.dict dfs) lv inp).bind fun s =>
        (genFields rest lv inp).map fun r => s ++ r := by
  rw [genFields]
  cases h : generate_code (.dict dfs) lv inp
  · rfl
  · cases h2 : genFields rest lv inp <;> rfl

theorem genFields_cons_list (k : String) (xs : List Node)
    (rest : List (String × Node)) (lv : Nat) (inp : Bool) :
    genFields ((k, .list xs) :: rest) lv inp =
      (genEach xs lv inp).bind fun ss =>
        (genFields rest lv inp).map fun r => String.join ss ++ r := by
  rw [genFields]
  cases h : genEach xs lv inp
  · rfl
  · cases h2 : genFields rest lv inp <;> rfl

theorem genFields_cons_str (k s : String) (rest : List (String × Node))
    (lv : Nat) (inp : Bool) :
    genFields ((k, .str s) :: rest) lv inp = genFields rest lv inp := by
  rw [genFields]

theorem genFields_cons_num (k : String) (n : Int) (rest : List (String × Node))
    (lv : Nat) (inp : Bool) :
    genFields ((k, .num n) :: rest) lv inp = genFields rest lv inp := by
  rw [genFields]

theorem genFields_cons_null (k : String) (rest : List (String × Node))
    (lv : Nat) (inp : Bool) :
    genFields ((k, Node.null) :: rest) lv inp = genFields rest lv inp := by
  rw [genFields]

theorem funcParamsCode_elems_none (afs : List (String × Node)) (lv : Nat)
    (h : truthy (Node.dict afs) = true)
    (h1 : pyElems (lookupD afs "params" (.list [])) = none) :
    funcParamsCode (.dict afs) lv = none := by
  rw [funcParamsCode]
  simp only [h, reduceIte]
  split
  · rfl
  · rename_i params heq
    rw [h1] at heq
    cases heq

theorem funcParamsCode_gen_none (afs : List (String × Node)) (lv : Nat)
    (params : List Node)
    (h : truthy (Node.dict afs) = true)
    (h1 : pyElems (lookupD afs "params" (.list [])) = some params)
    (h2 : genEach params lv true = none) :
    funcParamsCode (.dict afs) lv = none := by
  rw [funcParamsCode]
  simp only [h, reduceIte]
  split
  · rename_i heq
    simp [h1] at heq
  · rename_i params2 heq
    rw [h1] at heq
    cases heq
    rw [h2]

theorem funcParamsCode_gen_some (afs : List (String × Node)) (lv : Nat)
    (params : List Node) (rs : List String)
    (h : truthy (Node.dict afs) = true)
    (h1 : pyElems (lookupD afs "params" (.list [])) = some params)
    (h2 : genEach params lv true = some rs) :
    funcParamsCode (.dict afs) lv =
      some (if String.intercalate ", " rs = "" then "void"
            else String.intercalate ", " rs) := by
  rw [funcParamsCode]
  simp only [h, reduceIte]
  split
  · rename_i heq
    rw [h1] at heq
    cases heq
  · rename_i params2 heq
    rw [h1] at heq
    cases heq
    rw [h2]

theorem funcParamsCode_falsy (a : Node) (lv : Nat) (h : truthy a = false) :
    funcParamsCode a lv = some "void" := by
  cases a <;> rw [funcParamsCode] <;> simp_all [truthy]

theorem funcParamsCode_bad (a : Node) (lv : Nat) (h : truthy a = true)
    (h2 : isDict a = false) : funcParamsCode a lv = none := by
  cases a <;> simp only [isDict] at h2 <;> rw [funcParamsCode] <;>
    simp_all [truthy]

theorem initSuffix_none (lv : Nat) : initSuffix none lv = some "" := by
  rw [initSuffix]

theorem initSuffix_some (iv : Node) (lv : Nat) :
    initSuffix (some iv) lv =
      (if nodeEq iv Node.null then some ""
       else (generate_code iv lv false).map fun i => " = " ++ i) := by
  rw [initSuffix]
  by_cases h : nodeEq iv Node.null = true
  · simp only [h, reduceIte]
  · simp only [h, Bool.false_eq_true, reduceIte]
    cases h1 : generate_code iv lv false <;> rfl

theorem genEq_FuncDecl (fs : List (String × Node)) (lv : Nat) (inp : Bool)
    (ht : lookupD fs "_nodetype" (.str "") = .str "FuncDecl") :
    generate_code (.dict fs) lv inp = some "" := by
  rw [generate_code, ht]
  simp only [String.reduceEq, reduceIte]

theorem genEq_ID (fs : List (String × Node)) (lv : Nat) (inp : Bool)
    (ht : lookupD fs "_nodetype" (.str "") = .str "ID") :
    generate_code (.dict fs) lv inp = asStr (lookupD fs "name" (.str "")) := by
  rw [generate_code, ht]
  simp only [String.reduceEq, reduceIte]

theorem genEq_Constant (fs : List (String × Node)) (lv : Nat) (inp : Bool)
    (ht : lookupD fs "_nodetype" (.str "") = .str "Constant") :
    generate_code (.dict fs) lv inp = asStr (lookupD fs "value" (.str "")) := by
  rw [generate_code, ht]
  simp only [String.reduceEq, reduceIte]

theorem genEq_IdentifierType (fs : List (String × Node)) (lv : Nat) (inp : Bool)
    (ht : lookupD fs "_nodetype" (.str "") = .str "IdentifierType") :
    generate_code (.dict fs) lv inp =
      pyJoinStrs " " (lookupD fs "names" (.list [])) := by
  rw [generate_code, ht]
  simp only [String.reduceEq, reduceIte]

theorem genEq_Typename (fs : List (String × Node)) (lv : Nat) (inp : Bool)
    (ht : lookupD fs "_nodetype" (.str "") = .str "Typename") :
    generate_code (.dict fs) lv inp =
      generate_code (lookupD fs "type" Node.null) lv inp := by
  rw [generate_code, ht]
  simp only [String.reduceEq, reduceIte]

theorem genEq_PtrDecl (fs : List (String × Node)) (lv : Nat) (inp : Bool)
    (ht : lookupD fs "_nodetype" (.str "") = .str "PtrDecl") :
    generate_code (.dict fs) lv inp =
      (generate_code (lookupD fs "type" Node.null) lv inp).map
        fun inner => inner ++ " *" := by
  rw [generate_code, ht]
  simp only [String.reduceEq, reduceIte]
  cases h : generate_code (lookupD fs "type" Node.null) lv inp <;> simp

theorem genEq_TypeDecl (fs : List (String × Node)) (lv : Nat) (inp : Bool)
    (ht : lookupD fs "_nodetype" (.str "") = .str "TypeDecl") :
    generate_code (.dict fs) lv inp =
      (generate_code (lookupD fs "type" Node.null) lv inp).bind fun inner =>
        if truthy (lookupD fs "declname" Node.null) then
          match lookupD fs "declname" Node.null with
          | .str s => some (inner ++ " " ++ s)
          | _ => none
        else some inner := by
  rw [generate_code, ht]
  simp only [String.reduceEq, reduceIte]
  cases h : generate_code (lookupD fs "type" Node.null) lv inp <;> simp

theorem genEq_Return (fs : List (String × Node)) (lv : Nat) (inp : Bool)
    (ht : lookupD fs "_nodetype" (.str "") = .str "Return") :
    generate_code (.dict fs) lv inp =
      (if truthy (lookupD fs "expr" Node.null) then
        (generate_code (lookupD fs "expr" Node.null) lv false).map
          fun e => indent_str lv ++ "return " ++ e ++ ";"
      else some (indent_str lv ++ "return;")) := by
  rw [generate_code, ht]
  simp only [String.reduceEq, reduceIte]
  by_cases h : truthy (lookupD fs "expr" Node.null) = true
  · simp only [h, if_true]
    cases h2 : generate_code (lookupD fs "expr" Node.null) lv false <;> simp
  · simp [h]

theorem genEq_While (fs : List (String × Node)) (lv : Nat) (inp : Bool)
    (ht : lookupD fs "_nodetype" (.str "") = .str "While") :
    generate_code (.dict fs) lv inp =
      (generate_code (lookupD fs "cond" Node.null) lv inp).bind fun cond =>
        (generate_code (lookupD fs "stmt" Node.null) lv inp).map fun stmt =>
          indent_str lv ++ "while (" ++ cond ++ ") " ++ stmt := by
  rw [generate_code, ht]
  simp only [String.reduceEq, reduceIte]
  cases h : generate_code (lookupD fs "cond" Node.null) lv inp <;>
    [skip; cases h2 : generate_code (lookupD fs "stmt" Node.null) lv inp] <;>
    simp

theorem genEq_ArrayRef (fs : List (String × Node)) (lv : Nat) (inp : Bool)
    (ht : lookupD fs "_nodetype" (.str "") = .str "ArrayRef") :
    generate_code (.dict fs) lv inp =
      (generate_code (lookupD fs "name" Node.null) lv inp).bind fun arr =>
        (generate_code (lookupD fs "subscript" Node.null) lv inp).map fun sub =>
          arr ++ "[" ++ sub ++ "]" := by
  rw [generate_code, ht]
  simp only [String.reduceEq, reduceIte]
  cases h : generate_code (lookupD fs "name" Node.null) lv inp <;>
    [skip; cases h2 : generate_code (lookupD fs "subscript" Node.null) lv inp] <;>
    simp

theorem genEq_Assignment (fs : List (String × Node)) (lv : Nat) (inp : Bool)
    (ht : lookupD fs "_nodetype" (.str "") = .str "Assignment") :
    generate_code (.dict fs) lv inp =
      (generate_code (lookupD fs "lvalue" Node.null) lv inp).bind fun lvalue =>
        (generate_code (lookupD fs "rvalue" Node.null) lv inp).bind fun rvalue =>
          (asStr (lookupD fs "op" (.str "="))).map fun op =>
            indent_str lv ++ lvalue ++ " " ++ op ++ " " ++ rvalue ++ ";" := by
  rw [generate_code, ht]
  simp only [String.reduceEq, reduceIte]
  cases h : generate_code (lookupD fs "lvalue" Node.null) lv inp <;>
    [skip; cases h2 : generate_code (lookupD fs "rvalue" Node.null) lv inp] <;>
    [skip; skip; cases h3 : asStr (lookupD fs "op" (.str "="))] <;> simp

theorem genEq_BinaryOp (fs : List (String × Node)) (lv : Nat) (inp : Bool)
    (ht : lookupD fs "_nodetype" (.str "") = .str "BinaryOp") :
    generate_code (.dict fs) lv inp =
      (generate_code (lookupD fs "left" Node.null) lv inp).bind fun left =>
        (generate_code (lookupD fs "right" Node.null) lv inp).bind fun right =>
          (asStr (lookupD fs "op" (.str ""))).map fun op =>
            "(" ++ left ++ " " ++ op ++ " " ++ right ++ ")" := by
  rw [generate_code, ht]
  simp only [String.reduceEq, reduceIte]
  cases h : generate_code (lookupD fs "left" Node.null) lv inp <;>
    [skip; cases h2 : generate_code (lookupD fs "right" Node.null) lv inp] <;>
    [skip; skip; cases h3 : asStr (lookupD fs "op" (.str ""))] <;> simp

theorem genEq_FuncDef (fs : List (String × Node)) (lv : Nat) (inp : Bool)
    (ht : lookupD fs "_nodetype" (.str "") = .str "FuncDef") :
    generate_code (.dict fs) lv inp =
      (generate_code (lookupD fs "decl" Node.null) lv false).bind fun decl_code =>
        (generate_code (lookupD fs "body" Node.null) lv false).map fun body_code =>
          (if endsSemi decl_code then dropLastChar decl_code
           else decl_code) ++ " " ++ body_code := by
  rw [generate_code, ht]
  simp only [String.reduceEq, reduceIte]
  cases h : generate_code (lookupD fs "decl" Node.null) lv false <;>
    [skip; cases h2 : generate_code (lookupD fs "body" Node.null) lv false] <;>
    simp

theorem genEq_FileAST_noext (fs : List (String × Node)) (lv : Nat) (inp : Bool)
    (ht : lookupD fs "_nodetype" (.str "") = .str "FileAST")
    (hext : lookup fs "ext" = none) :
    generate_code (.dict fs) lv inp = some "" := by
  rw [generate_code, ht]
  simp only [String.reduceEq, reduceIte]
  split
  · rfl
  · rename_i ext heq
    simp [hext] at heq

theorem genEq_FileAST_ext (fs : List (String × Node)) (lv : Nat) (inp : Bool)
    (ext : Node)
    (ht : lookupD fs "_nodetype" (.str "") = .str "FileAST")
    (hext : lookup fs "ext" = some ext) :
    generate_code (.dict fs) lv inp =
      (pyElems ext).bind fun xs =>
        (genEach xs lv false).map (String.intercalate "\n\n") := by
  rw [generate_code, ht]
  simp only [String.reduceEq, reduceIte]
  split
  · rename_i heq
    simp [hext] at heq
  · rename_i ext2 heq
    rw [hext] at heq
    cases heq
    split
    · rename_i heq2
      rw [heq2]
      rfl
    · rename_i xs heq2
      rw [heq2]
      simp only [Option.some_bind]
      cases h3 : genEach xs lv false <;> rfl

theorem genEq_Compound_falsy (fs : List (String × Node)) (lv : Nat) (inp : Bool)
    (ht : lookupD fs "_nodetype" (.str "") = .str "Compound")
    (hb : truthy (lookupD fs "block_items" Node.null) = false) :
    generate_code (.dict fs) lv inp =
      some (String.intercalate "\n"
        [indent_str lv ++ "\x7b", indent_str lv ++ "\x7d"]) := by
  rw [generate_code, ht]
  simp only [String.reduceEq, reduceIte]
  split
  · rename_i heq
    simp [hb] at heq
  · rename_i items heq
    simp only [hb, Bool.false_eq_true, reduceIte] at heq
    cases heq
    rw [genEach_nil]
    rfl

theorem genEq_Compound_list (fs : List (String × Node)) (lv : Nat) (inp : Bool)
    (items : List Node)
    (ht : lookupD fs "_nodetype" (.str "") = .str "Compound")
    (hb : lookupD fs "block_items" Node.null = .list items)
    (htr : truthy (.list items) = true) :
    generate_code (.dict fs) lv inp =
      (genEach items (lv + 1) false).map fun rs =>
        String.intercalate "\n"
          ((indent_str lv ++ "\x7b") :: rs ++ [indent_str lv ++ "\x7d"]) := by
  rw [generate_code, ht]
  simp only [String.reduceEq, reduceIte]
  split
  · rename_i heq
    rw [hb] at heq
    simp [htr, pyElems] at heq
  · rename_i items2 heq
    rw [hb] at heq
    simp only [htr, reduceIte, pyElems] at heq
    cases heq
    cases h3 : genEach items (lv + 1) false <;> rfl

theorem funcCallArgsOf_falsy (a : Node) (lv : Nat) (h : truthy a = false) :
    funcCallArgsOf a lv = some "" := by
  cases a <;> rw [funcCallArgsOf] <;> simp_all [truthy]

theorem funcCallArgsOf_bad (a : Node) (lv : Nat) (h : truthy a = true)
    (h2 : isDict a = false) : funcCallArgsOf a lv = none := by
  cases a <;> simp only [isDict] at h2 <;> rw [funcCallArgsOf] <;>
    simp_all [truthy]

theorem funcCallArgsOf_elems_none (afs : List (String × Node)) (lv : Nat)
    (h : truthy (Node.dict afs) = true)
    (h1 : pyElems (lookupD afs "exprs" (.list [])) = none) :
    funcCallArgsOf (.dict afs) lv = none := by
  rw [funcCallArgsOf]
  simp only [h, reduceIte]
  split
  · rfl
  · rename_i xs heq
    simp [h1] at heq

theorem funcCallArgsOf_gen_none (afs : List (String × Node)) (lv : Nat)
    (xs : List Node)
    (h : truthy (Node.dict afs) = true)
    (h1 : pyElems (lookupD afs "exprs" (.list [])) = some xs)
    (h2 : genEach xs lv false = none) :
    funcCallArgsOf (.dict afs) lv = none := by
  rw [funcCallArgsOf]
  simp only [h, reduceIte]
  split
  · rename_i heq
    simp [h1] at heq
  · rename_i xs2 heq
    rw [h1] at heq
    cases heq
    rw [h2]

theorem funcCallArgsOf_gen_some (afs : List (String × Node)) (lv : Nat)
    (xs : List Node) (rs : List String)
    (h : truthy (Node.dict afs) = true)
    (h1 : pyElems (lookupD afs "exprs" (.list [])) = some xs)
    (h2 : genEach xs lv false = some rs) :
    funcCallArgsOf (.dict afs) lv = some (String.intercalate ", " rs) := by
  rw [funcCallArgsOf]
  simp only [h, reduceIte]
  split
  · rename_i heq
    simp [h1] at heq
  · rename_i xs2 heq
    rw [h1] at heq
    cases heq
    rw [h2]

theorem genEq_FuncCall (fs : List (String × Node)) (lv : Nat) (inp : Bool)
    (ht : lookupD fs "_nodetype" (.str "") = .str "FuncCall") :
    generate_code (.dict fs) lv inp =
      (generate_code (lookupD fs "name" Node.null) lv inp).bind fun name_code =>
        (funcCallArgsOf (lookupD fs "args" Node.null) lv).map fun args =>
          name_code ++ "(" ++ args ++ ")" := by
  rw [generate_code, ht]
  simp only [String.reduceEq, reduceIte]
  cases hn : generate_code (lookupD fs "name" Node.null) lv inp with
  | none => rfl
  | some name_code =>
    cases ha : funcCallArgsOf (lookupD fs "args" Node.null) lv <;> rfl

theorem genEq_If (fs : List (String × Node)) (lv : Nat) (inp : Bool)
    (ht : lookupD fs "_nodetype" (.str "") = .str "If") :
    generate_code (.dict fs) lv inp =
      (generate_code (lookupD fs "cond" Node.null) lv inp).bind fun cond =>
        (generate_code (lookupD fs "iftrue" Node.null) lv inp).bind fun iftrue =>
          if truthy (lookupD fs "iffalse" Node.null) then
            (generate_code (lookupD fs "iffalse" Node.null) lv inp).map fun e =>
              indent_str lv ++ "if (" ++ cond ++ ") " ++ iftrue ++ " else " ++ e
          else some (indent_str lv ++ "if (" ++ cond ++ ") " ++ iftrue) := by
  rw [generate_code, ht]
  simp only [String.reduceEq, reduceIte]
  cases hc : generate_code (lookupD fs "cond" Node.null) lv inp with
  | none => rfl
  | some cond =>
    cases h2 : generate_code (lookupD fs "iftrue" Node.null) lv inp with
    | none => rfl
    | some iftrue =>
      by_cases hf : truthy (lookupD fs "iffalse" Node.null) = true
      · simp only [hf, reduceIte]
        cases h3 : generate_code (lookupD fs "iffalse" Node.null) lv inp <;> rfl
      · simp only [Bool.not_eq_true] at hf
        simp only [hf, Bool.false_eq_true, reduceIte]
        rfl

theorem genEq_unhandled (fs : List (String × Node)) (lv : Nat) (inp : Bool)
    (tag : String)
    (ht : lookupD fs "_nodetype" (.str "") = .str tag)
    (hun : tag ∉ handledTags) :
    generate_code (.dict fs) lv inp = genFields fs lv inp := by
  simp only [handledTags, List.mem_cons, List.not_mem_nil, or_false,
    not_or] at hun
  obtain ⟨n1, n2, n3, n4, n5, n6, n7, n8, n9, n10, n11, n12, n13, n14, n15,
    n16, n17, n18⟩ := hun
  rw [generate_code, ht]
  simp only [if_neg n1, if_neg n2, if_neg n3, if_neg n4, if_neg n5, if_neg n6,
    if_neg n7, if_neg n8, if_neg n9, if_neg n10, if_neg n11, if_neg n12,
    if_neg n13, if_neg n14, if_neg n15, if_neg n16, if_neg n17, if_neg n18]

theorem genEq_nonstr_tag (fs : List (String × Node)) (lv : Nat) (inp : Bool)
    (hns : isStrNode (lookupD fs "_nodetype" (.str "")) = false) :
    generate_code (.dict fs) lv inp = genFields fs lv inp := by
  rw [generate_code]
  cases hv : lookupD fs "_nodetype" (.str "") <;> rw [hv] at hns <;>
    first
    | rfl
    | simp [isStrNode] at hns

theorem genEq_Decl_fn (fs tfs : List (String × Node)) (lv : Nat) (inp : Bool)
    (ht : lookupD fs "_nodetype" (.str "") = .str "Decl")
    (hty : lookupD fs "type" Node.null = .dict tfs)
    (hcond : (truthy (.dict tfs)
      && nodeEq (lookupD tfs "_nodetype" (.str "")) (.str "FuncDecl")) = true) :
    generate_code (.dict fs) lv inp =
      (generate_code (lookupD tfs "type" Node.null) lv inp).bind fun ret_type =>
        (funcParamsCode (lookupD tfs "args" Node.null) lv).bind fun params_code =>
          (declSig ret_type (lookupD fs "name" (.str "")) params_code).bind fun sig =>
            (initSuffix (lookup fs "init") lv).map fun sfx =>
              if inp then sig ++ sfx else indent_str lv ++ (sig ++ sfx) := by
  rw [generate_code, ht]
  simp only [String.reduceEq, reduceIte]
  split
  · rename_i tfs2 heq
    rw [hty] at heq
    cases heq
    simp only [hcond, reduceIte]
    cases h1 : generate_code (lookupD tfs "type" Node.null) lv inp with
    | none => rfl
    | some ret_type =>
      simp only [Option.some_bind]
      cases h2 : funcParamsCode (lookupD tfs "args" Node.null) lv with
      | none => rfl
      | some params_code =>
        simp only [Option.some_bind]
        cases h3 : declSig ret_type (lookupD fs "name" (.str "")) params_code with
        | none => rfl
        | some sig =>
          simp only [Option.some_bind]
          cases h4 : initSuffix (lookup fs "init") lv <;> rfl
  · rename_i hnd
    exact absurd hty (hnd tfs)

theorem genEq_Decl_else_dict (fs tfs : List (String × Node)) (lv : Nat)
    (inp : Bool)
    (ht : lookupD fs "_nodetype" (.str "") = .str "Decl")
    (hty : lookupD fs "type" Node.null = .dict tfs)
    (hcond : (truthy (.dict tfs)
      && nodeEq (lookupD tfs "_nodetype" (.str "")) (.str "FuncDecl")) = false) :
    generate_code (.dict fs) lv inp =
      (generate_code (.dict tfs) lv inp).bind fun type_code =>
        (declNameAppend fs type_code).bind fun code1 =>
          (initSuffix (lookup fs "init") lv).map fun sfx =>
            if inp then code1 ++ sfx else indent_str lv ++ (code1 ++ sfx) := by
  rw [generate_code, ht]
  simp only [String.reduceEq, reduceIte]
  split
  · rename_i tfs2 heq
    rw [hty] at heq
    cases heq
    simp only [hcond, Bool.false_eq_true, reduceIte]
    cases h1 : generate_code (.dict tfs) lv inp with
    | none => rfl
    | some type_code =>
      simp only [Option.some_bind]
      cases h2 : declNameAppend fs type_code with
      | none => rfl
      | some code1 =>
        simp only [Option.some_bind]
        cases h3 : initSuffix (lookup fs "init") lv <;> rfl
  · rename_i hnd
    exact absurd hty (hnd tfs)

theorem genEq_Decl_bad (fs : List (String × Node)) (t : Node) (lv : Nat)
    (inp : Bool)
    (ht : lookupD fs "_nodetype" (.str "") = .str "Decl")
    (hty : lookupD fs "type" Node.null = t)
    (hisd : isDict t = false)
    (htr : truthy t = true) :
    generate_code (.dict fs) lv inp = none := by
  rw [generate_code, ht]
  simp only [String.reduceEq, reduceIte]
  split
  · rename_i tfs2 heq
    rw [hty] at heq
    cases heq
    simp [isDict] at hisd
  · rename_i hnd
    rw [hty, htr]
    rfl

theorem genEq_Decl_else_prim (fs : List (String × Node)) (t : Node) (lv : Nat)
    (inp : Bool)
    (ht : lookupD fs "_nodetype" (.str "") = .str "Decl")
    (hty : lookupD fs "type" Node.null = t)
    (hisd : isDict t = false)
    (htr : truthy t = false) :
    generate_code (.dict fs) lv inp =
      (generate_code t lv inp).bind fun type_code =>
        (declNameAppend fs type_code).bind fun code1 =>
          (initSuffix (lookup fs "init") lv).map fun sfx =>
            if inp then code1 ++ sfx else indent_str lv ++ (code1 ++ sfx) := by
  rw [generate_code, ht]
  simp only [String.reduceEq, reduceIte]
  split
  · rename_i tfs2 heq
    rw [hty] at heq
    cases heq
    simp [isDict] at hisd
  · rename_i hnd
    rw [hty, htr]
    simp only [Bool.false_eq_true, reduceIte]
    cases h1 : generate_code t lv inp with
    | none => rfl
    | some type_code =>
      simp only [Option.some_bind]
      cases h2 : declNameAppend fs type_code with
      | none => rfl
      | some code1 =>
        simp only [Option.some_bind]
        cases h3 : initSuffix (lookup fs "init") lv <;> rfl

theorem funcParamsCode_dict_eq (afs : List (String × Node)) (lv : Nat) :
    funcParamsCode (.dict afs) lv =
      (if truthy (.dict afs) then
        (pyElems (lookupD afs "params" (.list []))).bind fun ps =>
          (genEach ps lv true).map fun rs =>
            if String.intercalate ", " rs = "" then "void"
            else String.intercalate ", " rs
      else some "void") := by
  by_cases h : truthy (Node.dict afs) = true
  · simp only [h, reduceIte]
    cases h1 : pyElems (lookupD afs "params" (.list [])) with
    | none =>
      rw [funcParamsCode_elems_none afs lv h h1]
      rfl
    | some ps =>
      simp only [Option.some_bind]
      cases h2 : genEach ps lv true with
      | none =>
        rw [funcParamsCode_gen_none afs lv ps h h1 h2]
        rfl
      | some rs =>
        rw [funcParamsCode_gen_some afs lv ps rs h h1 h2]
        rfl
  · simp only [Bool.not_eq_true] at h
    simp only [h, Bool.false_eq_true, reduceIte]
    exact funcParamsCode_falsy _ _ h

theorem funcCallArgsOf_dict_eq (afs : List (String × Node)) (lv : Nat) :
    funcCallArgsOf (.dict afs) lv =
      (if truthy (.dict afs) then
        (pyElems (lookupD afs "exprs" (.list []))).bind fun xs =>
          (genEach xs lv false).map (String.intercalate ", ")
      else some "") := by
  by_cases h : truthy (Node.dict afs) = true
  · simp only [h, reduceIte]
    cases h1 : pyElems (lookupD afs "exprs" (.list [])) with
    | none =>
      rw [funcCallArgsOf_elems_none afs lv h h1]
      rfl
    | some xs =>
      simp only [Option.some_bind]
      cases h2 : genEach xs lv false with
      | none =>
        rw [funcCallArgsOf_gen_none afs lv xs h h1 h2]
        rfl
      | some rs =>
        rw [funcCallArgsOf_gen_some afs lv xs rs h h1 h2]
        rfl
  · simp only [Bool.not_eq_true] at h
    simp only [h, Bool.false_eq_true, reduceIte]
    exact funcCallArgsOf_falsy _ _ h

theorem genEq_Decl (fs : List (String × Node)) (lv : Nat) (inp : Bool)
    (ht : lookupD fs "_nodetype" (.str "") = .str "Decl") :
    generate_code (.dict fs) lv inp =
      (match lookupD fs "type" Node.null with
       | .dict tfs =>
         if truthy (.dict tfs)
             && nodeEq (lookupD tfs "_nodetype" (.str "")) (.str "FuncDecl") then
           (generate_code (lookupD tfs "type" Node.null) lv inp).bind fun rt =>
             (funcParamsCode (lookupD tfs "args" Node.null) lv).bind fun pc =>
               (declSig rt (lookupD fs "name" (.str "")) pc).bind fun sig =>
                 (initSuffix (lookup fs "init") lv).map fun sfx =>
                   if inp then sig ++ sfx else indent_str lv ++ (sig ++ sfx)
         else
           (generate_code (.dict tfs) lv inp).bind fun tc =>
             (declNameAppend fs tc).bind fun code1 =>
               (initSuffix (lookup fs "init") lv).map fun sfx =>
                 if inp then code1 ++ sfx else indent_str lv ++ (code1 ++ sfx)
       | t =>
         if truthy t then none
         else
           (generate_code t lv inp).bind fun tc =>
             (declNameAppend fs tc).bind fun code1 =>
               (initSuffix (lookup fs "init") lv).map fun sfx =>
                 if inp then code1 ++ sfx else indent_str lv ++ (code1 ++ sfx)) := by
  cases hv : lookupD fs "type" Node.null with
  | dict tfs =>
    by_cases hc : (truthy (.dict tfs)
        && nodeEq (lookupD tfs "_nodetype" (.str "")) (.str "FuncDecl")) = true
    · rw [genEq_Decl_fn fs tfs lv inp ht hv hc]
      simp only [hc, reduceIte]
    · simp only [Bool.not_eq_true] at hc
      rw [genEq_Decl_else_dict fs tfs lv inp ht hv hc]
      simp only [hc, Bool.false_eq_true, reduceIte]
  | list xs =>
    by_cases h : truthy (Node.list xs) = true
    · rw [genEq_Decl_bad fs _ lv inp ht hv rfl h]
      simp only [h, reduceIte]
    · simp only [Bool.not_eq_true] at h
      rw [genEq_Decl_else_prim fs _ lv inp ht hv rfl h]
      simp only [h, Bool.false_eq_true, reduceIte]
  | str s =>
    by_cases h : truthy (Node.str s) = true
    · rw [genEq_Decl_bad fs _ lv inp ht hv rfl h]
      simp only [h, reduceIte]
    · simp only [Bool.not_eq_true] at h
      rw [genEq_Decl_else_prim fs _ lv inp ht hv rfl h]
      simp only [h, Bool.false_eq_true, reduceIte]
  | num n =>
    by_cases h : truthy (Node.num n) = true
    · rw [genEq_Decl_bad fs _ lv inp ht hv rfl h]
      simp only [h, reduceIte]
    · simp only [Bool.not_eq_true] at h
      rw [genEq_Decl_else_prim fs _ lv inp ht hv rfl h]
      simp only [h, Bool.false_eq_true, reduceIte]
  | null =>
    rw [genEq_Decl_else_prim fs _ lv inp ht hv rfl rfl]
    simp only [truthy, Bool.false_eq_true, reduceIte]

theorem genEq_FileAST (fs : List (String × Node)) (lv : Nat) (inp : Bool)
    (ht : lookupD fs "_nodetype" (.str "") = .str "FileAST") :
    generate_code (.dict fs) lv inp =
      (match lookup fs "ext" with
       | none => some ""
       | some ext =>
         (pyElems ext).bind fun xs =>
           (genEach xs lv false).map (String.intercalate "\n\n")) := by
  cases hv : lookup fs "ext" with
  | none => rw [genEq_FileAST_noext fs lv inp ht hv]
  | some ext => rw [genEq_FileAST_ext fs lv inp ext ht hv]

theorem genEq_Compound (fs : List (String × Node)) (lv : Nat) (inp : Bool)
    (ht : lookupD fs "_nodetype" (.str "") = .str "Compound") :
    generate_code (.dict fs) lv inp =
      ((if truthy (lookupD fs "block_items" Node.null) then
          pyElems (lookupD fs "block_items" Node.null)
        else some []).bind fun items =>
        (genEach items (lv + 1) false).map fun rs =>
          String.intercalate "\n"
            ((indent_str lv ++ "\x7b") :: rs ++ [indent_str lv ++ "\x7d"])) := by
  rw [generate_code, ht]
  simp only [String.reduceEq, reduceIte]
  split
  · rename_i heq
    rw [heq]
    rfl
  · rename_i items heq
    rw [heq]
    simp only [Option.some_bind]
    cases h3 : genEach items (lv + 1) false <;> rfl

theorem eval_itInt (lv : Nat) (inp : Bool) :
    generate_code (.dict itIntF) lv inp = some "int" := by
  rw [genEq_IdentifierType itIntF lv inp rfl]
  rfl

theorem eval_itChar (lv : Nat) (inp : Bool) :
    generate_code (.dict itCharF) lv inp = some "char" := by
  rw [genEq_IdentifierType itCharF lv inp rfl]
  rfl

theorem eval_tdX (lv : Nat) (inp : Bool) :
    generate_code (.dict tdXF) lv inp = some "int x" := by
  rw [genEq_TypeDecl tdXF lv inp rfl]
  rw [show lookupD tdXF "type" Node.null = Node.dict itIntF from rfl]
  rw [eval_itInt lv inp]
  rfl

theorem eval_tdName (lv : Nat) (inp : Bool) :
    generate_code (.dict tdNameF) lv inp = some "char name" := by
  rw [genEq_TypeDecl tdNameF lv inp rfl]
  rw [show lookupD tdNameF "type" Node.null = Node.dict itCharF from rfl]
  rw [eval_itChar lv inp]
  rfl

theorem eval_tdA (lv : Nat) (inp : Bool) :
    generate_code (.dict tdAF) lv inp = some "int a" := by
  rw [genEq_TypeDecl tdAF lv inp rfl]
  rw [show lookupD tdAF "type" Node.null = Node.dict itIntF from rfl]
  rw [eval_itInt lv inp]
  rfl

theorem eval_tdB (lv : Nat) (inp : Bool) :
    generate_code (.dict tdBF) lv inp = some "int b" := by
  rw [genEq_TypeDecl tdBF lv inp rfl]
  rw [show lookupD tdBF "type" Node.null = Node.dict itIntF from rfl]
  rw [eval_itInt lv inp]
  rfl

theorem eval_tdAdd (lv : Nat) (inp : Bool) :
    generate_code (.dict tdAddF) lv inp = some "int add" := by
  rw [genEq_TypeDecl tdAddF lv inp rfl]
  rw [show lookupD tdAddF "type" Node.null = Node.dict itIntF from rfl]
  rw [eval_itInt lv inp]
  rfl

theorem eval_tdF (lv : Nat) (inp : Bool) :
    generate_code (.dict tdFF) lv inp = some "int f" := by
  rw [genEq_TypeDecl tdFF lv inp rfl]
  rw [show lookupD tdFF "type" Node.null = Node.dict itIntF from rfl]
  rw [eval_itInt lv inp]
  rfl

theorem eval_ptrName (lv : Nat) (inp : Bool) :
    generate_code (.dict ptrNameF) lv inp = some "char name *" := by
  rw [genEq_PtrDecl ptrNameF lv inp rfl]
  rw [show lookupD ptrNameF "type" Node.null = Node.dict tdNameF from rfl]
  rw [eval_tdName lv inp]
  rfl

theorem eval_paramIntA (lv : Nat) :
    generate_code (.dict paramIntAF) lv true = some "int a" := by
  rw [genEq_Decl_else_dict paramIntAF tdAF lv true rfl rfl rfl]
  rw [eval_tdA lv true]
  rw [show lookup paramIntAF "init" = none from rfl]
  rw [initSuffix_none]
  rfl

theorem eval_paramIntB (lv : Nat) :
    generate_code (.dict paramIntBF) lv true = some "int b" := by
  rw [genEq_Decl_else_dict paramIntBF tdBF lv true rfl rfl rfl]
  rw [eval_tdB lv true]
  rw [show lookup paramIntBF "init" = none from rfl]
  rw [initSuffix_none]
  rfl

theorem genEach_addParams (lv : Nat) :
    genEach [paramIntA, paramIntB] lv true = some ["int a", "int b"] := by
  rw [genEach_cons, genEach_cons, genEach_nil]
  rw [show paramIntA = Node.dict paramIntAF from rfl]
  rw [show paramIntB = Node.dict paramIntBF from rfl]
  rw [eval_paramIntA lv, eval_paramIntB lv]
  rfl

theorem eval_addParams (lv : Nat) :
    funcParamsCode (.dict addParamsF) lv = some "int a, int b" := by
  rw [funcParamsCode_gen_some addParamsF lv [paramIntA, paramIntB]
    ["int a", "int b"] rfl rfl (genEach_addParams lv)]
  rfl

theorem eval_addDecl (lv : Nat) :
    generate_code (.dict addDeclF) lv false =
      some (indent_str lv ++ "int add(int a, int b)") := by
  rw [genEq_Decl_fn addDeclF addFnDeclF lv false rfl rfl rfl]
  rw [show lookupD addFnDeclF "type" Node.null = Node.dict tdAddF from rfl]
  rw [eval_tdAdd lv false]
  rw [show lookupD addFnDeclF "args" Node.null = Node.dict addParamsF from rfl]
  rw [eval_addParams lv]
  rw [show lookup addDeclF "init" = none from rfl]
  rw [initSuffix_none]
  rfl

theorem eval_emptyBody0 :
    generate_code (.dict emptyBodyF) 0 false = some "\x7b\n\x7d" := by
  rw [genEq_Compound_falsy emptyBodyF 0 false rfl rfl]
  rfl

theorem eval_addFuncDef (inp : Bool) :
    generate_code (.dict addFuncDefF) 0 inp =
      some "int add(int a, int b) \x7b\n\x7d" := by
  rw [genEq_FuncDef addFuncDefF 0 inp rfl]
  rw [show lookupD addFuncDefF "decl" Node.null = Node.dict addDeclF from rfl]
  rw [eval_addDecl 0]
  rw [show lookupD addFuncDefF "body" Node.null = Node.dict emptyBodyF from rfl]
  rw [eval_emptyBody0]
  rfl

theorem eval_idG (lv : Nat) (inp : Bool) :
    generate_code (.dict idGF) lv inp = some "g" := by
  rw [genEq_ID idGF lv inp rfl]
  rfl

theorem eval_idF (lv : Nat) (inp : Bool) :
    generate_code (.dict idFF) lv inp = some "f" := by
  rw [genEq_ID idFF lv inp rfl]
  rfl

theorem eval_idX (lv : Nat) (inp : Bool) :
    generate_code (.dict idXF) lv inp = some "x" := by
  rw [genEq_ID idXF lv inp rfl]
  rfl

theorem eval_callG (lv : Nat) (inp : Bool) :
    generate_code (.dict callGF) lv inp = some "g()" := by
  rw [genEq_FuncCall callGF lv inp rfl]
  rw [show lookupD callGF "name" Node.null = Node.dict idGF from rfl]
  rw [eval_idG lv inp]
  rw [show lookupD callGF "args" Node.null = Node.null from rfl]
  rw [funcCallArgsOf_falsy Node.null lv rfl]
  rfl

theorem eval_callF (lv : Nat) (inp : Bool) :
    generate_code (.dict callFF) lv inp = some "f()" := by
  rw [genEq_FuncCall callFF lv inp rfl]
  rw [show lookupD callFF "name" Node.null = Node.dict idFF from rfl]
  rw [eval_idF lv inp]
  rw [show lookupD callFF "args" Node.null = Node.null from rfl]
  rw [funcCallArgsOf_falsy Node.null lv rfl]
  rfl

theorem eval_voidFnInitDecl :
    generate_code (.dict voidFnInitDeclF) 0 false = some "int f(void) = g()" := by
  rw [genEq_Decl_fn voidFnInitDeclF fFnDeclF 0 false rfl rfl rfl]
  rw [show lookupD fFnDeclF "type" Node.null = Node.dict tdFF from rfl]
  rw [eval_tdF 0 false]
  rw [show lookupD fFnDeclF "args" Node.null = Node.null from rfl]
  rw [funcParamsCode_falsy Node.null 0 rfl]
  rw [show lookup voidFnInitDeclF "init" = some callG from rfl]
  rw [initSuffix_some]
  rw [show nodeEq callG Node.null = false from rfl]
  simp only [Bool.false_eq_true, reduceIte]
  rw [show callG = Node.dict callGF from rfl]
  rw [eval_callG 0 false]
  rfl

theorem eval_compCallBlock (inp : Bool) :
    generate_code (.dict compCallBlockF) 0 inp = some "\x7b\nf()\n\x7d" := by
  rw [genEq_Compound_list compCallBlockF 0 inp [callF] rfl rfl rfl]
  rw [genEach_cons]
  rw [show callF = Node.dict callFF from rfl]
  rw [eval_callF]
  rw [genEach_nil]
  rfl

theorem eval_ifNoCond (inp : Bool) :
    generate_code (.dict ifNoCondF) 0 inp = some "if (None) x" := by
  rw [genEq_If ifNoCondF 0 inp rfl]
  rw [show lookupD ifNoCondF "cond" Node.null = Node.null from rfl]
  rw [gen_null 0 inp]
  rw [show lookupD ifNoCondF "iftrue" Node.null = Node.dict idXF from rfl]
  rw [eval_idX 0 inp]
  rw [show truthy (lookupD ifNoCondF "iffalse" Node.null) = false from rfl]
  simp only [Bool.false_eq_true, reduceIte]
  rfl

theorem eval_declBadType (lv : Nat) (inp : Bool) :
    generate_code (.dict declBadTypeF) lv inp = none := by
  rw [genEq_Decl_bad declBadTypeF (.str "int") lv inp rfl rfl rfl rfl]

theorem eval_intXDecl (lv : Nat) :
    generate_code (.dict intXDeclF) lv false =
      some (indent_str lv ++ "int x") := by
  rw [genEq_Decl_else_dict intXDeclF tdXF lv false rfl rfl rfl]
  rw [eval_tdX lv false]
  rw [show lookup intXDeclF "init" = none from rfl]
  rw [initSuffix_none]
  rfl

theorem eval_charPtrNameDecl (lv : Nat) :
    generate_code (.dict charPtrNameDeclF) lv false =
      some (indent_str lv ++ "char name *") := by
  rw [genEq_Decl_else_dict charPtrNameDeclF ptrNameF lv false rfl rfl rfl]
  rw [eval_ptrName lv false]
  rw [show lookup charPtrNameDeclF "init" = none from rfl]
  rw [initSuffix_none]
  rfl

theorem eval_retNoExpr (inp : Bool) :
    generate_code (.dict retNoExprF) 0 inp = some "return;" := by
  rw [genEq_Return retNoExprF 0 inp rfl]
  rfl

theorem listStartsWith_append (l r : List Char) :
    listStartsWith (l ++ r) l = true := by
  induction l with
  | nil => cases r <;> rfl
  | cons c cs ih => simp [listStartsWith, ih]

theorem strStartsWith_append (a b : String) : strStartsWith (a ++ b) a = true := by
  rw [strStartsWith, String.data_append]
  exact listStartsWith_append a.data b.data

/-- C1: against the spec's claimed round trip `int x;` / `char *name;`, the
code renders the `int x;` declaration tree as `"int x"` (no semicolon is ever
emitted for a declaration statement) and the `char *name;` tree as
`"char name *"` (the pointer star lands after the already-name-carrying
`TypeDecl` rendering, not before the name). -/
theorem C1_decl_actual_outputs :
    generate_code intXDecl 0 false = some "int x" ∧
    generate_code charPtrNameDecl 0 false = some "char name *" := by
  constructor
  · rw [show intXDecl = Node.dict intXDeclF from rfl, eval_intXDecl 0]
    rfl
  · rw [show charPtrNameDecl = Node.dict charPtrNameDeclF from rfl,
      eval_charPtrNameDecl 0]
    rfl

/-- C1 (refutation of the spec text): the outputs are not the claimed
`"int x;"` and `"char *name;"`. -/
theorem C1_counterexample :
    generate_code intXDecl 0 false ≠ some "int x;" ∧
    generate_code charPtrNameDecl 0 false ≠ some "char *name;" := by
  constructor
  · rw [show intXDecl = Node.dict intXDeclF from rfl, eval_intXDecl 0]
    decide
  · rw [show charPtrNameDecl = Node.dict charPtrNameDeclF from rfl,
      eval_charPtrNameDecl 0]
    decide

/-- C2 (corrected): the `int add(int a, int b)` definition with an empty body
renders with a SPACE between the signature and the opening brace (source line
81 joins with `" "`), not the claimed newline; the parameters are
comma-space-joined and the empty body is a bare brace pair. -/
theorem C2_funcdef_space_join :
    generate_code addFuncDef 0 false =
      some "int add(int a, int b) \x7b\n\x7d" := by
  rw [show addFuncDef = Node.dict addFuncDefF from rfl]
  exact eval_addFuncDef false

/-- C2 (refutation of the spec text): the output is not the claimed
newline-joined form. -/
theorem C2_counterexample :
    generate_code addFuncDef 0 false ≠
      some "int add(int a, int b)\n\x7b\n\x7d" := by
  rw [show addFuncDef = Node.dict addFuncDefF from rfl, eval_addFuncDef false]
  decide

/-- C4 (corrected): an absent (falsy) or empty parameter list renders as
`void` in the signature's parentheses (source lines 43-50); the spec's
further claim that such a rendering "never contains ()" fails because other
parts of the declaration (for instance a zero-argument call in the
initializer) can still contribute a bare `()` — see `C4_counterexample`. -/
theorem C4_void_params (args : Node) (lv : Nat)
    (h : truthy args = false ∨
      ∃ afs, args = .dict afs ∧ lookupD afs "params" (.list []) = .list []) :
    funcParamsCode args lv = some "void" := by
  rcases h with h | ⟨afs, rfl, hp⟩
  · exact funcParamsCode_falsy args lv h
  · by_cases ht : truthy (Node.dict afs) = true
    · rw [funcParamsCode_gen_some afs lv [] [] ht (by rw [hp]; rfl)
        (genEach_nil lv true)]
      rfl
    · simp only [Bool.not_eq_true] at ht
      exact funcParamsCode_falsy _ lv ht

theorem C4_witness : funcParamsCode Node.null 0 = some "void" :=
  C4_void_params Node.null 0 (Or.inl rfl)

/-- C4 (refutation of the spec text): a zero-parameter function declaration
whose initializer is the zero-argument call `g()` renders as
`int f(void) = g()`, which does contain the substring `()`. -/
theorem C4_counterexample :
    generate_code voidFnInitDecl 0 false = some "int f(void) = g()" ∧
    containsSub "int f(void) = g()" "()" = true := by
  refine ⟨?_, by decide⟩
  rw [show voidFnInitDecl = Node.dict voidFnInitDeclF from rfl]
  exact eval_voidFnInitDecl

/-- C5 (corrected): a compound block at level `lv` renders its braces at
indent `lv` and hands each direct block item the level `lv + 1`; but only the
statement forms that themselves prefix `indent_str` (`Return`, `Assignment`,
`If`, `While`) actually produce an indented line — an expression-statement
such as a `FuncCall` ignores the level entirely (see `C5_counterexample`). -/
theorem C5_compound_and_statement_indent :
    (∀ (fs : List (String × Node)) (lv : Nat) (inp : Bool) (items : List Node),
      lookupD fs "_nodetype" (.str "") = .str "Compound" →
      lookupD fs "block_items" Node.null = .list items →
      truthy (.list items) = true →
      generate_code (.dict fs) lv inp =
        (genEach items (lv + 1) false).map fun rs =>
          String.intercalate "\n"
            ((indent_str lv ++ "\x7b") :: rs ++ [indent_str lv ++ "\x7d"])) ∧
    (∀ (fs : List (String × Node)) (lv : Nat) (inp : Bool) (tag s : String),
      lookupD fs "_nodetype" (.str "") = .str tag →
      tag ∈ ["Return", "Assignment", "If", "While"] →
      generate_code (.dict fs) lv inp = some s →
      strStartsWith s (indent_str lv) = true) := by
  constructor
  · intro fs lv inp items ht hb htr
    exact genEq_Compound_list fs lv inp items ht hb htr
  · intro fs lv inp tag s ht hmem hgen
    simp only [List.mem_cons, List.not_mem_nil, or_false] at hmem
    rcases hmem with rfl | rfl | rfl | rfl
    · rw [genEq_Return fs lv inp ht] at hgen
      by_cases he : truthy (lookupD fs "expr" Node.null) = true
      · simp only [he, reduceIte] at hgen
        cases h2 : generate_code (lookupD fs "expr" Node.null) lv false with
        | none => rw [h2] at hgen; cases hgen
        | some e =>
          rw [h2, Option.map_some'] at hgen
          cases hgen
          rw [show indent_str lv ++ "return " ++ e ++ ";" =
            indent_str lv ++ ("return " ++ e ++ ";") from by
              simp [String.append_assoc]]
          exact strStartsWith_append _ _
      · simp only [Bool.not_eq_true] at he
        simp only [he, Bool.false_eq_true, reduceIte] at hgen
        cases hgen
        exact strStartsWith_append _ _
    · rw [genEq_Assignment fs lv inp ht] at hgen
      cases h2 : generate_code (lookupD fs "lvalue" Node.null) lv inp with
      | none => rw [h2] at hgen; cases hgen
      | some a =>
        rw [h2, Option.some_bind] at hgen
        cases h3 : generate_code (lookupD fs "rvalue" Node.null) lv inp with
        | none => rw [h3] at hgen; cases hgen
        | some b =>
          rw [h3, Option.some_bind] at hgen
          cases h4 : asStr (lookupD fs "op" (.str "=")) with
          | none => rw [h4] at hgen; cases hgen
          | some op =>
            rw [h4, Option.map_some'] at hgen
            cases hgen
            rw [show indent_str lv ++ a ++ " " ++ op ++ " " ++ b ++ ";" =
              indent_str lv ++ (a ++ " " ++ op ++ " " ++ b ++ ";") from by
                simp [String.append_assoc]]
            exact strStartsWith_append _ _
    · rw [genEq_If fs lv inp ht] at hgen
      cases h2 : generate_code (lookupD fs "cond" Node.null) lv inp with
      | none => rw [h2] at hgen; cases hgen
      | some cond =>
        rw [h2, Option.some_bind] at hgen
        cases h3 : generate_code (lookupD fs "iftrue" Node.null) lv inp with
        | none => rw [h3] at hgen; cases hgen
        | some t =>
          rw [h3, Option.some_bind] at hgen
          by_cases hf : truthy (lookupD fs "iffalse" Node.null) = true
          · simp only [hf, reduceIte] at hgen
            cases h4 : generate_code (lookupD fs "iffalse" Node.null) lv inp with
            | none => rw [h4] at hgen; cases hgen
            | some e =>
              rw [h4, Option.map_some'] at hgen
              cases hgen
              rw [show indent_str lv ++ "if (" ++ cond ++ ") " ++ t
                  ++ " else " ++ e =
                indent_str lv ++ ("if (" ++ cond ++ ") " ++ t ++ " else " ++ e)
                from by simp [String.append_assoc]]
              exact strStartsWith_append _ _
          · simp only [Bool.not_eq_true] at hf
            simp only [hf, Bool.false_eq_true, reduceIte] at hgen
            cases hgen
            rw [show indent_str lv ++ "if (" ++ cond ++ ") " ++ t =
              indent_str lv ++ ("if (" ++ cond ++ ") " ++ t) from by
                simp [String.append_assoc]]
            exact strStartsWith_append _ _
    · rw [genEq_While fs lv inp ht] at hgen
      cases h2 : generate_code (lookupD fs "cond" Node.null) lv inp with
      | none => rw [h2] at hgen; cases hgen
      | some cond =>
        rw [h2, Option.some_bind] at hgen
        cases h3 : generate_code (lookupD fs "stmt" Node.null) lv inp with
        | none => rw [h3] at hgen; cases hgen
        | some stmt =>
          rw [h3, Option.map_some'] at hgen
          cases hgen
          rw [show indent_str lv ++ "while (" ++ cond ++ ") " ++ stmt =
            indent_str lv ++ ("while (" ++ cond ++ ") " ++ stmt) from by
              simp [String.append_assoc]]
          exact strStartsWith_append _ _

theorem C5_witness :
    generate_code (.dict compCallBlockF) 0 false =
      ((genEach [callF] (0 + 1) false).map fun rs =>
        String.intercalate "\n"
          ((indent_str 0 ++ "\x7b") :: rs ++ [indent_str 0 ++ "\x7d"])) ∧
    strStartsWith "return;" (indent_str 0) = true :=
  ⟨C5_compound_and_statement_indent.1 compCallBlockF 0 false [callF]
      rfl rfl rfl,
   C5_compound_and_statement_indent.2 retNoExprF 0 false "Return" "return;"
      rfl (by decide) (eval_retNoExpr false)⟩

/-- C5 (refutation of the spec text): inside the block `{ f(); }` rendered at
level 0, the `FuncCall` block item is rendered at level 1 but produces the
unindented line `f()`, so the claim that every direct statement line is
indented at exactly L+1 units fails for expression statements. -/
theorem C5_counterexample :
    generate_code compCallBlock 0 false = some "\x7b\nf()\n\x7d" ∧
    generate_code (.dict callFF) 1 false = some "f()" ∧
    strStartsWith "f()" (indent_str 1) = false := by
  refine ⟨?_, eval_callF 1 false, by decide⟩
  rw [show compCallBlock = Node.dict compCallBlockF from rfl]
  exact eval_compCallBlock false

/-- C6: a tagged node whose tag is outside the dispatch table renders as
`genFields fs lv inp`, the in-order concatenation of the renderings of the
dict-valued fields and of the elements of the list-valued fields (primitive
fields and the tag contribute nothing); in particular an unrecognized tag
wrapping exactly one recognized dict child renders as exactly that child's
rendering. -/
theorem C6_fallback (fs : List (String × Node)) (lv : Nat) (inp : Bool)
    (tag : String)
    (ht : lookupD fs "_nodetype" (.str "") = .str tag)
    (hun : tag ∉ handledTags) :
    generate_code (.dict fs) lv inp = genFields fs lv inp ∧
    (∀ (key : String) (cfs : List (String × Node)) (s : String),
      fs = [("_nodetype", .str tag), (key, .dict cfs)] →
      generate_code (.dict cfs) lv inp = some s →
      generate_code (.dict fs) lv inp = some s) := by
  have hmain := genEq_unhandled fs lv inp tag ht hun
  refine ⟨hmain, ?_⟩
  intro key cfs s hfs hchild
  subst hfs
  rw [hmain, genFields_cons_str, genFields_cons_dict, hchild,
    Option.some_bind, genFields_nil, Option.map_some', String.append_empty]

theorem C6_witness : generate_code (.dict customWrapF) 0 false = some "g" :=
  (C6_fallback customWrapF 0 false "CustomAttr" rfl (by decide)).2
    "child" idGF "g" rfl (eval_idG 0 false)

/-- C8 (corrected): the guarded optional fields really are omitted when
absent — a `Return` without `expr` renders `return;`, an `If` without
`iffalse` renders no else part, a `FuncCall` with falsy `args` renders `()`
with nothing inside, and a `Decl` without `init` gets an empty initializer
suffix; but fields read without a truthiness guard (such as an `If`'s
missing `cond`) fall through to `str(None)` and inject the placeholder text
`None` — see `C8_counterexample`. -/
theorem C8_guarded_optional_fields (fs : List (String × Node)) (lv : Nat)
    (inp : Bool) :
    (lookupD fs "_nodetype" (.str "") = .str "Return" →
      truthy (lookupD fs "expr" Node.null) = false →
      generate_code (.dict fs) lv inp = some (indent_str lv ++ "return;")) ∧
    (lookupD fs "_nodetype" (.str "") = .str "If" →
      truthy (lookupD fs "iffalse" Node.null) = false →
      generate_code (.dict fs) lv inp =
        (generate_code (lookupD fs "cond" Node.null) lv inp).bind fun cond =>
          (generate_code (lookupD fs "iftrue" Node.null) lv inp).bind fun t =>
            some (indent_str lv ++ "if (" ++ cond ++ ") " ++ t)) ∧
    (lookupD fs "_nodetype" (.str "") = .str "FuncCall" →
      truthy (lookupD fs "args" Node.null) = false →
      generate_code (.dict fs) lv inp =
        (generate_code (lookupD fs "name" Node.null) lv inp).bind fun nm =>
          some (nm ++ "(" ++ "" ++ ")")) ∧
    (lookup fs "init" = none → initSuffix (lookup fs "init") lv = some "") := by
  refine ⟨?_, ?_, ?_, ?_⟩
  · intro ht he
    rw [genEq_Return fs lv inp ht]
    simp only [he, Bool.false_eq_true, reduceIte]
  · intro ht hf
    rw [genEq_If fs lv inp ht]
    simp only [hf, Bool.false_eq_true, reduceIte]
  · intro ht ha
    rw [genEq_FuncCall fs lv inp ht, funcCallArgsOf_falsy _ lv ha]
    simp only [Option.map_some']
  · intro hi
    rw [hi, initSuffix_none]

theorem C8_witness :
    generate_code (.dict retNoExprF) 0 false =
      some (indent_str 0 ++ "return;") :=
  (C8_guarded_optional_fields retNoExprF 0 false).1 rfl rfl

/-- C8 (refutation of the spec text): an `If` with no `cond` field renders
`if (None) x` — the unguarded absent field is read as `None` and
`str(None)` injects the placeholder text `None` into the output instead of
omitting the part. -/
theorem C8_counterexample :
    generate_code ifNoCond 0 false = some "if (None) x" ∧
    containsSub "if (None) x" "None" = true := by
  refine ⟨?_, by decide⟩
  rw [show ifNoCond = Node.dict ifNoCondF from rfl]
  exact eval_ifNoCond false

/-- C9: when the declaration's own `name` is truthy and the type subtree's
resolved declared name equals it, the simple-declaration path appends
nothing (the name appears only inside the type rendering); on the
function-declarator path, when the last whitespace token of the return-type
rendering equals the raw name, the signature reuses the rendering without
appending the name again; and on the canonical chains the declared name
occurs exactly once in the final output. -/
theorem C9_name_dedup :
    (∀ (fs : List (String × Node)) (tc : String) (v : Node),
      truthy (lookupD fs "name" (.str "")) = true →
      get_declname (lookupD fs "type" Node.null) = some v →
      nodeEq v (lookupD fs "name" (.str "")) = true →
      declNameAppend fs tc = some tc) ∧
    (∀ (rt pc t : String) (nm : Node),
      (pySplit rt).getLast? = some t →
      nodeEq (.str t) nm = true →
      declSig rt nm pc = some (rt ++ "(" ++ pc ++ ")")) ∧
    countSub "int x" "x" = 1 ∧
    countSub "int add(int a, int b) \x7b\n\x7d" "add" = 1 ∧
    countSub "char name *" "name" = 1 := by
  refine ⟨?_, ?_, by decide, by decide, by decide⟩
  · intro fs tc v hname hgd heq
    rw [declNameAppend, hgd]
    simp only [hname, heq, Bool.not_true, Bool.and_false, Bool.false_eq_true,
      reduceIte]
    by_cases h : tc = ""
    · subst h
      simp
    · simp [h]
  · intro rt pc t nm hlast heq
    rw [declSig, hlast]
    simp only [heq, reduceIte]

theorem C9_witness :
    declNameAppend intXDeclF "int x" = some "int x" ∧
    declSig "int add" (.str "add") "int a, int b" =
      some "int add(int a, int b)" :=
  ⟨C9_name_dedup.1 intXDeclF "int x" (.str "x") rfl rfl rfl,
   C9_name_dedup.2.1 "int add" "int a, int b" "add" (.str "add") rfl rfl⟩

/-- C10: a `Compound` whose `block_items` value is falsy (the field absent,
`null`, or an empty list — all of which `or []` coerces to the empty list)
renders exactly the two-line brace pair, identical to the rendering with an
explicitly empty statement list. -/
theorem C10_compound_null_absent (fs : List (String × Node)) (lv : Nat)
    (inp : Bool)
    (ht : lookupD fs "_nodetype" (.str "") = .str "Compound")
    (hb : truthy (lookupD fs "block_items" Node.null) = false) :
    generate_code (.dict fs) lv inp =
      some (String.intercalate "\n"
        [indent_str lv ++ "\x7b", indent_str lv ++ "\x7d"]) ∧
    generate_code (.dict fs) lv inp =
      generate_code (.dict [("_nodetype", .str "Compound"),
        ("block_items", .list [])]) lv inp := by
  have h1 := genEq_Compound_falsy fs lv inp ht hb
  have h2 := genEq_Compound_falsy
    [("_nodetype", .str "Compound"), ("block_items", .list [])] lv inp rfl rfl
  exact ⟨h1, h1.trans h2.symm⟩

theorem C10_witness :
    generate_code (.dict [("_nodetype", Node.str "Compound")]) 0 false =
      some (String.intercalate "\n"
        [indent_str 0 ++ "\x7b", indent_str 0 ++ "\x7d"]) :=
  (C10_compound_null_absent [("_nodetype", Node.str "Compound")] 0 false
    rfl rfl).1

end Ast2C

namespace Ast2C

mutual

/-- Specification-side model for the C7 refinement, written from the spec's
words: the truthy `declname` values of the tree in the fixed pre-order
traversal — a dict contributes its own truthy `declname` first and then its
fields in insertion order, a list contributes its items in order, primitives
contribute nothing. -/
def declnameList : Node → List Node
  | .dict fs =>
    (if truthy (lookupD fs "declname" Node.null) then
      [lookupD fs "declname" Node.null]
     else []) ++ declnameListFields fs
  | .list xs => declnameListItems xs
  | .str _ => []
  | .num _ => []
  | .null => []

/-- The pre-order `declname` values below a field list. -/
def declnameListFields : List (String × Node) → List Node
  | [] => []
  | (_, v) :: rest => declnameList v ++ declnameListFields rest

/-- The pre-order `declname` values below an item list. -/
def declnameListItems : List Node → List Node
  | [] => []
  | v :: rest => declnameList v ++ declnameListItems rest

end

theorem declnameList_truthy_sized (k : Nat) :
    (∀ n : Node, sizeOf n ≤ k → ∀ x ∈ declnameList n, truthy x = true) ∧
    (∀ fs : List (String × Node), sizeOf fs ≤ k →
      ∀ x ∈ declnameListFields fs, truthy x = true) ∧
    (∀ xs : List Node, sizeOf xs ≤ k →
      ∀ x ∈ declnameListItems xs, truthy x = true) := by
  induction k using Nat.strong_induction_on with
  | _ k IH =>
    refine ⟨?_, ?_, ?_⟩
    · intro n hsz x hx
      match n with
      | .dict fs =>
        have hlt : sizeOf fs < k := by
          have h := Node.dict.sizeOf_spec fs
          omega
        simp only [declnameList, List.mem_append] at hx
        rcases hx with hx | hx
        · by_cases ht : truthy (lookupD fs "declname" Node.null) = true
          · simp only [ht, reduceIte, List.mem_singleton] at hx
            subst hx
            exact ht
          · simp only [Bool.not_eq_true] at ht
            simp only [ht, Bool.false_eq_true, reduceIte,
              List.not_mem_nil] at hx
        · exact (IH (sizeOf fs) hlt).2.1 fs (le_refl _) x hx
      | .list xs =>
        have hlt : sizeOf xs < k := by
          have h := Node.list.sizeOf_spec xs
          omega
        simp only [declnameList] at hx
        exact (IH (sizeOf xs) hlt).2.2 xs (le_refl _) x hx
      | .str s => simp [declnameList] at hx
      | .num m => simp [declnameList] at hx
      | .null => simp [declnameList] at hx
    · intro fs hsz x hx
      match fs with
      | [] => simp [declnameListFields] at hx
      | (k2, v) :: rest =>
        have hv : sizeOf v < k := by
          have h1 := List.cons.sizeOf_spec (k2, v) rest
          have h2 := Prod.mk.sizeOf_spec k2 v
          omega
        have hr : sizeOf rest < k := by
          have h1 := List.cons.sizeOf_spec (k2, v) rest
          omega
        simp only [declnameListFields, List.mem_append] at hx
        rcases hx with hx | hx
        · exact (IH (sizeOf v) hv).1 v (le_refl _) x hx
        · exact (IH (sizeOf rest) hr).2.1 rest (le_refl _) x hx
    · intro xs hsz x hx
      match xs with
      | [] => simp [declnameListItems] at hx
      | v :: rest =>
        have hv : sizeOf v < k := by
          have h1 := List.cons.sizeOf_spec v rest
          omega
        have hr : sizeOf rest < k := by
          have h1 := List.cons.sizeOf_spec v rest
          omega
        simp only [declnameListItems, List.mem_append] at hx
        rcases hx with hx | hx
        · exact (IH (sizeOf v) hv).1 v (le_refl _) x hx
        · exact (IH (sizeOf rest) hr).2.2 rest (le_refl _) x hx

theorem get_declname_head_sized (k : Nat) :
    (∀ n : Node, sizeOf n ≤ k → get_declname n = (declnameList n).head?) ∧
    (∀ fs : List (String × Node), sizeOf fs ≤ k →
      get_declname_fields fs = (declnameListFields fs).head?) ∧
    (∀ xs : List Node, sizeOf xs ≤ k →
      get_declname_items xs = (declnameListItems xs).head?) := by
  induction k using Nat.strong_induction_on with
  | _ k IH =>
    refine ⟨?_, ?_, ?_⟩
    · intro n hsz
      match n with
      | .dict fs =>
        have hlt : sizeOf fs < k := by
          have h := Node.dict.sizeOf_spec fs
          omega
        have hf := (IH (sizeOf fs) hlt).2.1 fs (le_refl _)
        cases hv : lookup fs "declname" with
        | none =>
          simp only [get_declname, declnameList, hv, lookupD,
            Option.getD_none, truthy, Bool.false_eq_true, reduceIte,
            List.nil_append]
          exact hf
        | some v =>
          by_cases ht : truthy v = true
          · simp only [get_declname, declnameList, hv, lookupD,
              Option.getD_some, ht, reduceIte, List.singleton_append,
              List.head?_cons]
          · simp only [Bool.not_eq_true] at ht
            simp only [get_declname, declnameList, hv, lookupD,
              Option.getD_some, ht, Bool.false_eq_true, reduceIte,
              List.nil_append]
            exact hf
      | .list xs =>
        have hlt : sizeOf xs < k := by
          have h := Node.list.sizeOf_spec xs
          omega
        simp only [get_declname, declnameList]
        exact (IH (sizeOf xs) hlt).2.2 xs (le_refl _)
      | .str s => rfl
      | .num m => rfl
      | .null => rfl
    · intro fs hsz
      match fs with
      | [] => rfl
      | (k2, v) :: rest =>
        have hv : sizeOf v < k := by
          have h1 := List.cons.sizeOf_spec (k2, v) rest
          have h2 := Prod.mk.sizeOf_spec k2 v
          omega
        have hr : sizeOf rest < k := by
          have h1 := List.cons.sizeOf_spec (k2, v) rest
          omega
        have ihv := (IH (sizeOf v) hv).1 v (le_refl _)
        have ihr := (IH (sizeOf rest) hr).2.1 rest (le_refl _)
        simp only [get_declname_fields, declnameListFields]
        rw [ihv]
        cases hl : declnameList v with
        | nil =>
          simp only [List.nil_append, List.head?_nil]
          exact ihr
        | cons a as =>
          have hta : truthy a = true :=
            (declnameList_truthy_sized (sizeOf v)).1 v (le_refl _) a
              (by rw [hl]; exact List.mem_cons_self a as)
          simp only [List.head?_cons, hta, reduceIte, List.cons_append]
    · intro xs hsz
      match xs with
      | [] => rfl
      | v :: rest =>
        have hv : sizeOf v < k := by
          have h1 := List.cons.sizeOf_spec v rest
          omega
        have hr : sizeOf rest < k := by
          have h1 := List.cons.sizeOf_spec v rest
          omega
        have ihv := (IH (sizeOf v) hv).1 v (le_refl _)
        have ihr := (IH (sizeOf rest) hr).2.2 rest (le_refl _)
        simp only [get_declname_items, declnameListItems]
        rw [ihv]
        cases hl : declnameList v with
        | nil =>
          simp only [List.nil_append, List.head?_nil]
          exact ihr
        | cons a as =>
          have hta : truthy a = true :=
            (declnameList_truthy_sized (sizeOf v)).1 v (le_refl _) a
              (by rw [hl]; exact List.mem_cons_self a as)
          simp only [List.head?_cons, hta, reduceIte, List.cons_append]

/-- C7: the resolver `get_declname` is a total function of the node alone
(hence deterministic), and it refines the spec's description exactly: it
returns the head of the pre-order list of truthy `declname` values — the
node's own truthy `declname` immediately when present, otherwise the first
truthy declared name found recursing through fields in insertion order and
list items in order; primitives contribute nothing and a tree with no such
value yields `none` rather than an error. -/
theorem C7_resolver_refines (n : Node) :
    get_declname n = (declnameList n).head? :=
  (get_declname_head_sized (sizeOf n)).1 n (le_refl _)

/-- A value sitting in an iterated (`for x in v`) position: Python accepts a
list or a dict there (dict iteration yields its keys). -/
def isElems : Node → Bool
  | .list _ => true
  | .dict _ => true
  | _ => false

/-- A value fed to `" ".join(...)`: a list of strings, a dict (keys), or a
string (characters). -/
def strJoinOk : Node → Bool
  | .list xs => xs.all fun x => isStrNode x
  | .dict _ => true
  | .str _ => true
  | _ => false

/-- The `args` value of a `FuncDecl`: falsy values short-circuit to `void`;
a truthy value must be a dict whose `params` entry is iterable. -/
def argsOk : Node → Bool
  | .dict afs => isElems (lookupD afs "params" (.list []))
  | a => !truthy a

/-- The `args` value of a `FuncCall`: falsy values short-circuit to no
arguments; a truthy value must be a dict whose `exprs` entry is iterable. -/
def callArgsOk : Node → Bool
  | .dict afs => isElems (lookupD afs "exprs" (.list []))
  | a => !truthy a

/-- The per-tag obligations under which every dispatch branch of
`generate_code` completes without a dynamic failure. -/
def wsTag (fs : List (String × Node)) : Bool :=
  let tag := lookupD fs "_nodetype" (.str "")
  if nodeEq tag (.str "FileAST") then
    (match lookup fs "ext" with
     | none => true
     | some e => isElems e)
  else if nodeEq tag (.str "Decl") then
    ((match lookupD fs "type" Node.null with
      | .dict tfs =>
        if truthy (.dict tfs)
            && nodeEq (lookupD tfs "_nodetype" (.str "")) (.str "FuncDecl") then
          argsOk (lookupD tfs "args" Node.null)
        else true
      | t => !truthy t) &&
     isStrNode (lookupD fs "name" (.str "")))
  else if nodeEq tag (.str "TypeDecl") then
    (!truthy (lookupD fs "declname" Node.null) ||
      isStrNode (lookupD fs "declname" Node.null))
  else if nodeEq tag (.str "IdentifierType") then
    strJoinOk (lookupD fs "names" (.list []))
  else if nodeEq tag (.str "Compound") then
    (!truthy (lookupD fs "block_items" Node.null) ||
      isElems (lookupD fs "block_items" Node.null))
  else if nodeEq tag (.str "FuncCall") then
    callArgsOk (lookupD fs "args" Node.null)
  else if nodeEq tag (.str "Assignment") then
    isStrNode (lookupD fs "op" (.str "="))
  else if nodeEq tag (.str "BinaryOp") then
    isStrNode (lookupD fs "op" (.str ""))
  else if nodeEq tag (.str "ID") then
    isStrNode (lookupD fs "name" (.str ""))
  else if nodeEq tag (.str "Constant") then
    isStrNode (lookupD fs "value" (.str ""))
  else true

mutual

/-- Well-shaped nodes: every dict in the tree meets its dispatch branch's
obligations (`wsTag`).  On this fragment the generator never hits a dynamic
failure; `declBadType` below is a tree outside it. -/
def ws : Node → Bool
  | .dict fs => wsTag fs && wsFields fs
  | .list xs => wsItems xs
  | .str _ => true
  | .num _ => true
  | .null => true

/-- `ws` on every field value. -/
def wsFields : List (String × Node) → Bool
  | [] => true
  | (_, v) :: rest => ws v && wsFields rest

/-- `ws` on every list element. -/
def wsItems : List Node → Bool
  | [] => true
  | x :: rest => ws x && wsItems rest

end

theorem lookup_mem {key : String} {v : Node} :
    ∀ {fs : List (String × Node)}, lookup fs key = some v → (key, v) ∈ fs := by
  intro fs
  induction fs with
  | nil => intro h; cases h
  | cons p rest ih =>
    intro h
    obtain ⟨k2, v2⟩ := p
    rw [lookup] at h
    by_cases hk : k2 = key
    · subst hk
      rw [if_pos rfl] at h
      cases h
      exact List.mem_cons_self _ _
    · rw [if_neg hk] at h
      exact List.mem_cons_of_mem _ (ih h)

theorem wsFields_mem {k2 : String} {v : Node} :
    ∀ {fs : List (String × Node)}, wsFields fs = true → (k2, v) ∈ fs →
      ws v = true := by
  intro fs
  induction fs with
  | nil => intro _ hm; cases hm
  | cons p rest ih =>
    intro h hm
    rw [show p = (p.1, p.2) from rfl, wsFields, Bool.and_eq_true] at h
    obtain ⟨h1, h2⟩ := h
    rcases List.mem_cons.mp hm with heq | hm2
    · cases heq
      exact h1
    · exact ih h2 hm2

theorem wsItems_mem {x : Node} :
    ∀ {xs : List Node}, wsItems xs = true → x ∈ xs → ws x = true := by
  intro xs
  induction xs with
  | nil => intro _ hm; cases hm
  | cons a as ih =>
    intro h hm
    rw [wsItems, Bool.and_eq_true] at h
    obtain ⟨h1, h2⟩ := h
    rcases List.mem_cons.mp hm with rfl | hm2
    · exact h1
    · exact ih h2 hm2

theorem ws_lookupD {fs : List (String × Node)} (key : String) {d : Node}
    (hwf : wsFields fs = true) (hd : ws d = true) :
    ws (lookupD fs key d) = true := by
  rw [lookupD]
  cases hv : lookup fs key with
  | none => simpa using hd
  | some v =>
    simp only [Option.getD_some]
    exact wsFields_mem hwf (lookup_mem hv)

theorem lookupD_cases (fs : List (String × Node)) (key : String) (d : Node) :
    lookupD fs key d = d ∨ lookup fs key = some (lookupD fs key d) := by
  rw [lookupD]
  cases hv : lookup fs key
  · left; rfl
  · right; rfl

theorem sizeOf_mem_items {x : Node} :
    ∀ {xs : List Node}, x ∈ xs → sizeOf x < sizeOf xs := by
  intro xs
  induction xs with
  | nil => intro h; cases h
  | cons a as ih =>
    intro h
    rcases List.mem_cons.mp h with rfl | h2
    · simp
      omega
    · have := ih h2
      simp
      omega

theorem sizeOf_mem_fields {k2 : String} {v : Node} :
    ∀ {fs : List (String × Node)}, (k2, v) ∈ fs → sizeOf v < sizeOf fs := by
  intro fs
  induction fs with
  | nil => intro h; cases h
  | cons p rest ih =>
    intro h
    rcases List.mem_cons.mp h with heq | h2
    · cases heq
      simp
      omega
    · have := ih h2
      obtain ⟨k3, w⟩ := p
      simp
      omega

theorem isElems_pyElems {v : Node} (h : isElems v = true) :
    ∃ xs, pyElems v = some xs := by
  cases v with
  | list xs => exact ⟨xs, rfl⟩
  | dict fs => exact ⟨_, rfl⟩
  | str s => simp [isElems] at h
  | num m => simp [isElems] at h
  | null => simp [isElems] at h

theorem ws_pyElems_mem {v : Node} {xs : List Node} {x : Node}
    (hws : ws v = true) (hel : pyElems v = some xs) (hx : x ∈ xs) :
    ws x = true := by
  cases v with
  | list l =>
    rw [pyElems] at hel
    cases hel
    exact wsItems_mem (by simpa [ws] using hws) hx
  | dict fs =>
    rw [pyElems] at hel
    cases hel
    obtain ⟨p, _, rfl⟩ := List.mem_map.mp hx
    rfl
  | str s => cases hel
  | num m => cases hel
  | null => cases hel

theorem asStr_isSome {v : Node} (h : isStrNode v = true) :
    (asStr v).isSome = true := by
  cases v <;> first | rfl | simp [isStrNode] at h

theorem declSig_isSome (rt pc : String) (nm : Node)
    (h : isStrNode nm = true) : (declSig rt nm pc).isSome = true := by
  rw [declSig]
  split
  · rfl
  · obtain ⟨s, hs⟩ := Option.isSome_iff_exists.mp (asStr_isSome h)
    rw [hs]
    rfl

theorem declNameAppend_isSome (fs : List (String × Node)) (tc : String)
    (h : isStrNode (lookupD fs "name" (.str "")) = true) :
    (declNameAppend fs tc).isSome = true := by
  cases hname : lookupD fs "name" (.str "") with
  | str s =>
    simp only [declNameAppend, hname]
    split <;> rfl
  | dict fs2 => rw [hname] at h; simp [isStrNode] at h
  | list xs => rw [hname] at h; simp [isStrNode] at h
  | num m => rw [hname] at h; simp [isStrNode] at h
  | null => rw [hname] at h; simp [isStrNode] at h

theorem mapM_asStr_isSome :
    ∀ {xs : List Node}, (xs.all fun x => isStrNode x) = true →
      (xs.mapM asStr).isSome = true := by
  intro xs
  induction xs with
  | nil => intro _; rfl
  | cons a as ih =>
    intro h
    rw [List.all_cons, Bool.and_eq_true] at h
    obtain ⟨h1, h2⟩ := h
    rw [List.mapM_cons]
    obtain ⟨s, hs⟩ := Option.isSome_iff_exists.mp (asStr_isSome h1)
    obtain ⟨rs, hrs⟩ := Option.isSome_iff_exists.mp (ih h2)
    rw [hs, hrs]
    rfl

theorem pyJoinStrs_isSome {sep : String} {v : Node}
    (h : strJoinOk v = true) : (pyJoinStrs sep v).isSome = true := by
  cases v with
  | list xs =>
    rw [pyJoinStrs]
    obtain ⟨rs, hrs⟩ := Option.isSome_iff_exists.mp
      (mapM_asStr_isSome (by simpa [strJoinOk] using h))
    rw [hrs]
    rfl
  | dict fs => rfl
  | str s => rfl
  | num m => simp [strJoinOk] at h
  | null => simp [strJoinOk] at h

theorem genEach_total (xs : List Node) (lv : Nat) (inp : Bool)
    (hrec : ∀ x ∈ xs, ∀ l i, (generate_code x l i).isSome = true) :
    (genEach xs lv inp).isSome = true := by
  induction xs with
  | nil => rw [genEach_nil]; rfl
  | cons a as ih =>
    rw [genEach_cons]
    obtain ⟨s, hs⟩ := Option.isSome_iff_exists.mp
      (hrec a (List.mem_cons_self _ _) lv inp)
    obtain ⟨rs, hrs⟩ := Option.isSome_iff_exists.mp
      (ih fun x hx l i => hrec x (List.mem_cons_of_mem a hx) l i)
    rw [hs, Option.some_bind, hrs]
    rfl

theorem genFields_total (fs : List (String × Node)) (lv : Nat) (inp : Bool)
    (hrec : ∀ p ∈ fs, ∀ l i, (generate_code p.2 l i).isSome = true) :
    (genFields fs lv inp).isSome = true := by
  induction fs with
  | nil => rw [genFields_nil]; rfl
  | cons p rest ih =>
    have hrest := ih fun q hq l i => hrec q (List.mem_cons_of_mem p hq) l i
    obtain ⟨r, hr⟩ := Option.isSome_iff_exists.mp hrest
    obtain ⟨k2, v⟩ := p
    have hv := hrec (k2, v) (List.mem_cons_self _ _)
    match v with
    | .dict dfs =>
      rw [genFields_cons_dict]
      obtain ⟨s, hs⟩ := Option.isSome_iff_exists.mp (hv lv inp)
      rw [hs, Option.some_bind, hr]
      rfl
    | .list xs =>
      rw [genFields_cons_list]
      have hgl := hv lv inp
      rw [gen_list] at hgl
      have hge : (genEach xs lv inp).isSome = true := by
        cases hg : genEach xs lv inp
        · rw [hg] at hgl
          simp at hgl
        · rfl
      obtain ⟨ss, hss⟩ := Option.isSome_iff_exists.mp hge
      rw [hss, Option.some_bind, hr]
      rfl
    | .str s => rw [genFields_cons_str]; exact hrest
    | .num m => rw [genFields_cons_num]; exact hrest
    | .null => rw [genFields_cons_null]; exact hrest

theorem funcParamsCode_total (a : Node) (lv : Nat) (hok : argsOk a = true)
    (hrec : ∀ afs, a = .dict afs → ∀ xs,
      pyElems (lookupD afs "params" (.list [])) = some xs →
      ∀ x ∈ xs, ∀ l i, (generate_code x l i).isSome = true) :
    (funcParamsCode a lv).isSome = true := by
  match a with
  | .dict afs =>
    by_cases ht : truthy (Node.dict afs) = true
    · have hel : isElems (lookupD afs "params" (.list [])) = true := by
        simpa [argsOk] using hok
      obtain ⟨xs, hxs⟩ := isElems_pyElems hel
      obtain ⟨rs, hrs⟩ := Option.isSome_iff_exists.mp
        (genEach_total xs lv true fun x hx l i => hrec afs rfl xs hxs x hx l i)
      rw [funcParamsCode_gen_some afs lv xs rs ht hxs hrs]
      rfl
    · simp only [Bool.not_eq_true] at ht
      rw [funcParamsCode_falsy _ lv ht]
      rfl
  | .list xs =>
    rw [funcParamsCode_falsy _ lv (by simpa [argsOk, Bool.not_eq_true'] using hok)]
    rfl
  | .str s =>
    rw [funcParamsCode_falsy _ lv (by simpa [argsOk, Bool.not_eq_true'] using hok)]
    rfl
  | .num m =>
    rw [funcParamsCode_falsy _ lv (by simpa [argsOk, Bool.not_eq_true'] using hok)]
    rfl
  | .null =>
    rw [funcParamsCode_falsy Node.null lv rfl]
    rfl

theorem funcCallArgsOf_total (a : Node) (lv : Nat) (hok : callArgsOk a = true)
    (hrec : ∀ afs, a = .dict afs → ∀ xs,
      pyElems (lookupD afs "exprs" (.list [])) = some xs →
      ∀ x ∈ xs, ∀ l i, (generate_code x l i).isSome = true) :
    (funcCallArgsOf a lv).isSome = true := by
  match a with
  | .dict afs =>
    by_cases ht : truthy (Node.dict afs) = true
    · have hel : isElems (lookupD afs "exprs" (.list [])) = true := by
        simpa [callArgsOk] using hok
      obtain ⟨xs, hxs⟩ := isElems_pyElems hel
      obtain ⟨rs, hrs⟩ := Option.isSome_iff_exists.mp
        (genEach_total xs lv false fun x hx l i => hrec afs rfl xs hxs x hx l i)
      rw [funcCallArgsOf_gen_some afs lv xs rs ht hxs hrs]
      rfl
    · simp only [Bool.not_eq_true] at ht
      rw [funcCallArgsOf_falsy _ lv ht]
      rfl
  | .list xs =>
    rw [funcCallArgsOf_falsy _ lv (by simpa [callArgsOk, Bool.not_eq_true'] using hok)]
    rfl
  | .str s =>
    rw [funcCallArgsOf_falsy _ lv (by simpa [callArgsOk, Bool.not_eq_true'] using hok)]
    rfl
  | .num m =>
    rw [funcCallArgsOf_falsy _ lv (by simpa [callArgsOk, Bool.not_eq_true'] using hok)]
    rfl
  | .null =>
    rw [funcCallArgsOf_falsy Node.null lv rfl]
    rfl

theorem initSuffix_total (o : Option Node) (lv : Nat)
    (hrec : ∀ iv, o = some iv → ∀ l i, (generate_code iv l i).isSome = true) :
    (initSuffix o lv).isSome = true := by
  match o with
  | none => rw [initSuffix_none]; rfl
  | some iv =>
    rw [initSuffix_some]
    by_cases hn : nodeEq iv Node.null = true
    · simp only [hn, reduceIte]
      rfl
    · simp only [Bool.not_eq_true] at hn
      simp only [hn, Bool.false_eq_true, reduceIte]
      obtain ⟨s, hs⟩ := Option.isSome_iff_exists.mp (hrec iv rfl lv false)
      rw [hs]
      rfl

theorem gen_total_sized (k : Nat) :
    ∀ n : Node, sizeOf n ≤ k → ws n = true →
      ∀ lv inp, (generate_code n lv inp).isSome = true := by
  induction k using Nat.strong_induction_on with
  | _ k IH =>
    intro n hsz hws lv inp
    match n with
    | .str s => rw [gen_str]; rfl
    | .num m => rw [gen_num]; rfl
    | .null => rw [gen_null]; rfl
    | .list xs =>
      have hszxs : sizeOf xs < k := by
        have h := Node.list.sizeOf_spec xs
        omega
      have hxs : wsItems xs = true := by simpa [ws] using hws
      rw [gen_list]
      obtain ⟨rs, hrs⟩ := Option.isSome_iff_exists.mp
        (genEach_total xs lv inp fun x hx l i =>
          IH (sizeOf x) (by have := sizeOf_mem_items hx; omega) x (le_refl _)
            (wsItems_mem hxs hx) l i)
      rw [hrs]
      rfl
    | .dict fs =>
      have hszfs : sizeOf fs < k := by
        have h := Node.dict.sizeOf_spec fs
        omega
      have hsplit := hws
      simp only [ws, Bool.and_eq_true] at hsplit
      obtain ⟨hwt, hwf⟩ := hsplit
      have hchild : ∀ v : Node, sizeOf v ≤ sizeOf fs → ws v = true →
          ∀ l i, (generate_code v l i).isSome = true := by
        intro v hv hwv l i
        exact IH (sizeOf v) (by omega) v (le_refl _) hwv l i
      have hlookD : ∀ (key : String) (l : Nat) (i : Bool),
          (generate_code (lookupD fs key Node.null) l i).isSome = true := by
        intro key l i
        rcases lookupD_cases fs key Node.null with h | h
        · rw [h, gen_null]; rfl
        · exact hchild _ (le_of_lt (lookup_strict_sizeOf h))
            (wsFields_mem hwf (lookup_mem h)) l i
      have hfall : generate_code (.dict fs) lv inp = genFields fs lv inp →
          (generate_code (.dict fs) lv inp).isSome = true := by
        intro heq
        rw [heq]
        exact genFields_total fs lv inp fun p hp l i =>
          hchild p.2 (le_of_lt (sizeOf_mem_fields hp))
            (wsFields_mem hwf hp) l i
      cases htag : lookupD fs "_nodetype" (.str "") with
      | dict fs2 => exact hfall (genEq_nonstr_tag fs lv inp (by rw [htag]; rfl))
      | list xs2 => exact hfall (genEq_nonstr_tag fs lv inp (by rw [htag]; rfl))
      | num m2 => exact hfall (genEq_nonstr_tag fs lv inp (by rw [htag]; rfl))
      | null => exact hfall (genEq_nonstr_tag fs lv inp (by rw [htag]; rfl))
      | str tag =>
        rcases eq_or_ne tag "FileAST" with rfl | h1
        · have hcond := hwt
          simp only [wsTag, htag, nodeEq, String.reduceBEq, Bool.false_eq_true,
            reduceIte] at hcond
          cases hex : lookup fs "ext" with
          | none =>
            rw [genEq_FileAST_noext fs lv inp htag hex]
            rfl
          | some ext =>
            rw [genEq_FileAST_ext fs lv inp ext htag hex]
            simp only [hex] at hcond
            have hwe : ws ext = true := wsFields_mem hwf (lookup_mem hex)
            have hse : sizeOf ext < sizeOf fs := lookup_strict_sizeOf hex
            obtain ⟨xs, hxs⟩ := isElems_pyElems hcond
            rw [hxs, Option.some_bind]
            obtain ⟨rs, hrs⟩ := Option.isSome_iff_exists.mp
              (genEach_total xs lv false fun x hx l i =>
                hchild x (by
                    have hm1 := sizeOf_mem_items hx
                    have hm2 := pyElems_sizeOf hxs
                    omega) (ws_pyElems_mem hwe hxs hx) l i)
            rw [hrs]
            rfl
        rcases eq_or_ne tag "Decl" with rfl | h2
        · have hcond := hwt
          simp only [wsTag, htag, nodeEq, String.reduceBEq, Bool.false_eq_true,
            reduceIte] at hcond
          rw [Bool.and_eq_true] at hcond
          obtain ⟨hcond1, hname⟩ := hcond
          have hinit : (initSuffix (lookup fs "init") lv).isSome = true :=
            initSuffix_total (lookup fs "init") lv fun iv hiv l i =>
              hchild iv (le_of_lt (lookup_strict_sizeOf hiv))
                (wsFields_mem hwf (lookup_mem hiv)) l i
          revert hcond1
          cases hty : lookupD fs "type" Node.null with
          | dict tfs =>
            intro hcond1
            have hwty : ws (Node.dict tfs) = true := by
              have h := ws_lookupD "type" hwf (show ws Node.null = true from rfl)
              rwa [hty] at h
            have hsty : sizeOf (Node.dict tfs) < 1 + sizeOf fs := by
              have h := lookupD_null_sizeOf fs "type"
              rwa [hty] at h
            have hwftfs : wsFields tfs = true := by
              have h := hwty
              simp only [ws, Bool.and_eq_true] at h
              exact h.2
            by_cases hc : (truthy (Node.dict tfs)
                && nodeEq (lookupD tfs "_nodetype" (.str ""))
                  (.str "FuncDecl")) = true
            · rw [genEq_Decl_fn fs tfs lv inp htag hty hc]
              simp only [hc, reduceIte] at hcond1
              have hret : ∀ l i, (generate_code
                  (lookupD tfs "type" Node.null) l i).isSome = true := by
                intro l i
                rcases lookupD_cases tfs "type" Node.null with h | h
                · rw [h, gen_null]; rfl
                · have hm := wsFields_mem hwftfs (lookup_mem h)
                  have hs2 := lookup_strict_sizeOf h
                  refine hchild _ ?_ hm l i
                  have h3 := Node.dict.sizeOf_spec tfs
                  omega
              obtain ⟨rt, hrt⟩ := Option.isSome_iff_exists.mp (hret lv inp)
              rw [hrt, Option.some_bind]
              have hpc : (funcParamsCode
                  (lookupD tfs "args" Node.null) lv).isSome = true := by
                apply funcParamsCode_total _ _ hcond1
                intro afs hafs xs hxs x hx l i
                have hwargs : ws (Node.dict afs) = true := by
                  have h := ws_lookupD "args" hwftfs
                    (show ws Node.null = true from rfl)
                  rwa [hafs] at h
                have hsargs : sizeOf (Node.dict afs) < 1 + sizeOf tfs := by
                  have h := lookupD_null_sizeOf tfs "args"
                  rwa [hafs] at h
                have hwfafs : wsFields afs = true := by
                  have h := hwargs
                  simp only [ws, Bool.and_eq_true] at h
                  exact h.2
                have hwp : ws (lookupD afs "params" (Node.list [])) = true :=
                  ws_lookupD "params" hwfafs rfl
                have hsp := lookupD_nil_sizeOf afs "params"
                refine hchild x ?_ (ws_pyElems_mem hwp hxs hx) l i
                have hm1 := sizeOf_mem_items hx
                have hm2 := pyElems_sizeOf hxs
                have h3 := Node.dict.sizeOf_spec tfs
                have h4 := Node.dict.sizeOf_spec afs
                omega
              obtain ⟨pc, hpc2⟩ := Option.isSome_iff_exists.mp hpc
              rw [hpc2, Option.some_bind]
              obtain ⟨sig, hsig⟩ := Option.isSome_iff_exists.mp
                (declSig_isSome rt pc (lookupD fs "name" (.str "")) hname)
              rw [hsig, Option.some_bind]
              obtain ⟨sfx, hsfx⟩ := Option.isSome_iff_exists.mp hinit
              rw [hsfx]
              rfl
            · simp only [Bool.not_eq_true] at hc
              rw [genEq_Decl_else_dict fs tfs lv inp htag hty hc]
              have h3 := Node.dict.sizeOf_spec tfs
              obtain ⟨tc, htc⟩ := Option.isSome_iff_exists.mp
                (hchild (Node.dict tfs) (by omega) hwty lv inp)
              rw [htc, Option.some_bind]
              obtain ⟨c1, hc1⟩ := Option.isSome_iff_exists.mp
                (declNameAppend_isSome fs tc hname)
              rw [hc1, Option.some_bind]
              obtain ⟨sfx, hsfx⟩ := Option.isSome_iff_exists.mp hinit
              rw [hsfx]
              rfl
          | list xs2 =>
            intro hcond1
            have htr : truthy (Node.list xs2) = false := by simpa using hcond1
            have hxe : xs2 = [] := by
              simpa [truthy, List.isEmpty_iff] using htr
            subst hxe
            rw [genEq_Decl_else_prim fs (Node.list []) lv inp htag hty rfl htr]
            have hgt : (generate_code (Node.list []) lv inp).isSome = true := by
              rw [gen_list, genEach_nil]
              rfl
            obtain ⟨tc, htc⟩ := Option.isSome_iff_exists.mp hgt
            rw [htc, Option.some_bind]
            obtain ⟨c1, hc1⟩ := Option.isSome_iff_exists.mp
              (declNameAppend_isSome fs tc hname)
            rw [hc1, Option.some_bind]
            obtain ⟨sfx, hsfx⟩ := Option.isSome_iff_exists.mp hinit
            rw [hsfx]
            rfl
          | str s2 =>
            intro hcond1
            have htr : truthy (Node.str s2) = false := by simpa using hcond1
            rw [genEq_Decl_else_prim fs (Node.str s2) lv inp htag hty rfl htr]
            obtain ⟨tc, htc⟩ := Option.isSome_iff_exists.mp
              (show (generate_code (Node.str s2) lv inp).isSome = true by
                rw [gen_str]; rfl)
            rw [htc, Option.some_bind]
            obtain ⟨c1, hc1⟩ := Option.isSome_iff_exists.mp
              (declNameAppend_isSome fs tc hname)
            rw [hc1, Option.some_bind]
            obtain ⟨sfx, hsfx⟩ := Option.isSome_iff_exists.mp hinit
            rw [hsfx]
            rfl
          | num m2 =>
            intro hcond1
            have htr : truthy (Node.num m2) = false := by simpa using hcond1
            rw [genEq_Decl_else_prim fs (Node.num m2) lv inp htag hty rfl htr]
            obtain ⟨tc, htc⟩ := Option.isSome_iff_exists.mp
              (show (generate_code (Node.num m2) lv inp).isSome = true by
                rw [gen_num]; rfl)
            rw [htc, Option.some_bind]
            obtain ⟨c1, hc1⟩ := Option.isSome_iff_exists.mp
              (declNameAppend_isSome fs tc hname)
            rw [hc1, Option.some_bind]
            obtain ⟨sfx, hsfx⟩ := Option.isSome_iff_exists.mp hinit
            rw [hsfx]
            rfl
          | null =>
            intro hcond1
            rw [genEq_Decl_else_prim fs Node.null lv inp htag hty rfl rfl]
            rw [gen_null, Option.some_bind]
            obtain ⟨c1, hc1⟩ := Option.isSome_iff_exists.mp
              (declNameAppend_isSome fs "None" hname)
            rw [hc1, Option.some_bind]
            obtain ⟨sfx, hsfx⟩ := Option.isSome_iff_exists.mp hinit
            rw [hsfx]
            rfl
        rcases eq_or_ne tag "FuncDef" with rfl | h3
        · rw [genEq_FuncDef fs lv inp htag]
          obtain ⟨dc, hdc⟩ := Option.isSome_iff_exists.mp (hlookD "decl" lv false)
          rw [hdc, Option.some_bind]
          obtain ⟨bc, hbc⟩ := Option.isSome_iff_exists.mp (hlookD "body" lv false)
          rw [hbc]
          rfl
        rcases eq_or_ne tag "FuncDecl" with rfl | h4
        · rw [genEq_FuncDecl fs lv inp htag]
          rfl
        rcases eq_or_ne tag "TypeDecl" with rfl | h5
        · have hcond := hwt
          simp only [wsTag, htag, nodeEq, String.reduceBEq, Bool.false_eq_true,
            reduceIte, Bool.or_eq_true] at hcond
          rw [genEq_TypeDecl fs lv inp htag]
          obtain ⟨inner, hin⟩ := Option.isSome_iff_exists.mp (hlookD "type" lv inp)
          rw [hin, Option.some_bind]
          by_cases hd : truthy (lookupD fs "declname" Node.null) = true
          · have hstr : isStrNode (lookupD fs "declname" Node.null) = true := by
              rcases hcond with h | h
              · rw [hd] at h
                simp at h
              · exact h
            simp only [hd, reduceIte]
            clear hcond hd
            cases hdd : lookupD fs "declname" Node.null with
            | str s2 => rfl
            | dict fs2 => rw [hdd] at hstr; simp [isStrNode] at hstr
            | list xs2 => rw [hdd] at hstr; simp [isStrNode] at hstr
            | num m2 => rw [hdd] at hstr; simp [isStrNode] at hstr
            | null => rw [hdd] at hstr; simp [isStrNode] at hstr
          · simp only [Bool.not_eq_true] at hd
            simp only [hd, Bool.false_eq_true, reduceIte]
            rfl
        rcases eq_or_ne tag "IdentifierType" with rfl | h6
        · have hcond := hwt
          simp only [wsTag, htag, nodeEq, String.reduceBEq, Bool.false_eq_true,
            reduceIte] at hcond
          rw [genEq_IdentifierType fs lv inp htag]
          exact pyJoinStrs_isSome hcond
        rcases eq_or_ne tag "PtrDecl" with rfl | h7
        · rw [genEq_PtrDecl fs lv inp htag]
          obtain ⟨inner, hin⟩ := Option.isSome_iff_exists.mp (hlookD "type" lv inp)
          rw [hin]
          rfl
        rcases eq_or_ne tag "Typename" with rfl | h8
        · rw [genEq_Typename fs lv inp htag]
          exact hlookD "type" lv inp
        rcases eq_or_ne tag "Compound" with rfl | h9
        · have hcond := hwt
          simp only [wsTag, htag, nodeEq, String.reduceBEq, Bool.false_eq_true,
            reduceIte] at hcond
          rw [genEq_Compound fs lv inp htag]
          by_cases ht2 : truthy (lookupD fs "block_items" Node.null) = true
          · simp only [ht2, reduceIte]
            simp only [ht2, Bool.not_true, Bool.false_or] at hcond
            obtain ⟨xs, hxs⟩ := isElems_pyElems hcond
            rw [hxs, Option.some_bind]
            have hwb : ws (lookupD fs "block_items" Node.null) = true :=
              ws_lookupD "block_items" hwf rfl
            obtain ⟨rs, hrs⟩ := Option.isSome_iff_exists.mp
              (genEach_total xs (lv + 1) false fun x hx l i =>
                hchild x (by
                    have hm1 := sizeOf_mem_items hx
                    have hm2 := pyElems_sizeOf hxs
                    have hm3 := lookupD_null_sizeOf fs "block_items"
                    omega) (ws_pyElems_mem hwb hxs hx) l i)
            rw [hrs]
            rfl
          · simp only [Bool.not_eq_true] at ht2
            simp only [ht2, Bool.false_eq_true, reduceIte, Option.some_bind]
            rw [genEach_nil]
            rfl
        rcases eq_or_ne tag "Return" with rfl | h10
        · rw [genEq_Return fs lv inp htag]
          by_cases he : truthy (lookupD fs "expr" Node.null) = true
          · simp only [he, reduceIte]
            obtain ⟨e, hee⟩ := Option.isSome_iff_exists.mp (hlookD "expr" lv false)
            rw [hee]
            rfl
          · simp only [Bool.not_eq_true] at he
            simp only [he, Bool.false_eq_true, reduceIte]
            rfl
        rcases eq_or_ne tag "FuncCall" with rfl | h11
        · have hcond := hwt
          simp only [wsTag, htag, nodeEq, String.reduceBEq, Bool.false_eq_true,
            reduceIte] at hcond
          rw [genEq_FuncCall fs lv inp htag]
          obtain ⟨nm, hnm⟩ := Option.isSome_iff_exists.mp (hlookD "name" lv inp)
          rw [hnm, Option.some_bind]
          have hargs : (funcCallArgsOf
              (lookupD fs "args" Node.null) lv).isSome = true := by
            apply funcCallArgsOf_total _ _ hcond
            intro afs hafs xs hxs x hx l i
            have hwargs : ws (Node.dict afs) = true := by
              have h := ws_lookupD "args" hwf (show ws Node.null = true from rfl)
              rwa [hafs] at h
            have hsargs : sizeOf (Node.dict afs) < 1 + sizeOf fs := by
              have h := lookupD_null_sizeOf fs "args"
              rwa [hafs] at h
            have hwfafs : wsFields afs = true := by
              have h := hwargs
              simp only [ws, Bool.and_eq_true] at h
              exact h.2
            have hwp : ws (lookupD afs "exprs" (Node.list [])) = true :=
              ws_lookupD "exprs" hwfafs rfl
            have hsp := lookupD_nil_sizeOf afs "exprs"
            refine hchild x ?_ (ws_pyElems_mem hwp hxs hx) l i
            have hm1 := sizeOf_mem_items hx
            have hm2 := pyElems_sizeOf hxs
            have h4 := Node.dict.sizeOf_spec afs
            omega
          obtain ⟨ar, har⟩ := Option.isSome_iff_exists.mp hargs
          rw [har]
          rfl
        rcases eq_or_ne tag "Assignment" with rfl | h12
        · have hcond := hwt
          simp only [wsTag, htag, nodeEq, String.reduceBEq, Bool.false_eq_true,
            reduceIte] at hcond
          rw [genEq_Assignment fs lv inp htag]
          obtain ⟨a, ha⟩ := Option.isSome_iff_exists.mp (hlookD "lvalue" lv inp)
          rw [ha, Option.some_bind]
          obtain ⟨b, hb⟩ := Option.isSome_iff_exists.mp (hlookD "rvalue" lv inp)
          rw [hb, Option.some_bind]
          obtain ⟨op, hop⟩ := Option.isSome_iff_exists.mp (asStr_isSome hcond)
          rw [hop]
          rfl
        rcases eq_or_ne tag "BinaryOp" with rfl | h13
        · have hcond := hwt
          simp only [wsTag, htag, nodeEq, String.reduceBEq, Bool.false_eq_true,
            reduceIte] at hcond
          rw [genEq_BinaryOp fs lv inp htag]
          obtain ⟨a, ha⟩ := Option.isSome_iff_exists.mp (hlookD "left" lv inp)
          rw [ha, Option.some_bind]
          obtain ⟨b, hb⟩ := Option.isSome_iff_exists.mp (hlookD "right" lv inp)
          rw [hb, Option.some_bind]
          obtain ⟨op, hop⟩ := Option.isSome_iff_exists.mp (asStr_isSome hcond)
          rw [hop]
          rfl
        rcases eq_or_ne tag "ID" with rfl | h14
        · have hcond := hwt
          simp only [wsTag, htag, nodeEq, String.reduceBEq, Bool.false_eq_true,
            reduceIte] at hcond
          rw [genEq_ID fs lv inp htag]
          exact asStr_isSome hcond
        rcases eq_or_ne tag "Constant" with rfl | h15
        · have hcond := hwt
          simp only [wsTag, htag, nodeEq, String.reduceBEq, Bool.false_eq_true,
            reduceIte] at hcond
          rw [genEq_Constant fs lv inp htag]
          exact asStr_isSome hcond
        rcases eq_or_ne tag "If" with rfl | h16
        · rw [genEq_If fs lv inp htag]
          obtain ⟨c, hcc⟩ := Option.isSome_iff_exists.mp (hlookD "cond" lv inp)
          rw [hcc, Option.some_bind]
          obtain ⟨t, htt⟩ := Option.isSome_iff_exists.mp (hlookD "iftrue" lv inp)
          rw [htt, Option.some_bind]
          by_cases hf : truthy (lookupD fs "iffalse" Node.null) = true
          · simp only [hf, reduceIte]
            obtain ⟨e, hee⟩ := Option.isSome_iff_exists.mp
              (hlookD "iffalse" lv inp)
            rw [hee]
            rfl
          · simp only [Bool.not_eq_true] at hf
            simp only [hf, Bool.false_eq_true, reduceIte]
            rfl
        rcases eq_or_ne tag "While" with rfl | h17
        · rw [genEq_While fs lv inp htag]
          obtain ⟨c, hcc⟩ := Option.isSome_iff_exists.mp (hlookD "cond" lv inp)
          rw [hcc, Option.some_bind]
          obtain ⟨st, hst⟩ := Option.isSome_iff_exists.mp (hlookD "stmt" lv inp)
          rw [hst]
          rfl
        rcases eq_or_ne tag "ArrayRef" with rfl | h18
        · rw [genEq_ArrayRef fs lv inp htag]
          obtain ⟨a, ha⟩ := Option.isSome_iff_exists.mp (hlookD "name" lv inp)
          rw [ha, Option.some_bind]
          obtain ⟨b, hb⟩ := Option.isSome_iff_exists.mp
            (hlookD "subscript" lv inp)
          rw [hb]
          rfl
        have hnot : tag ∉ handledTags := by
          simp only [handledTags, List.mem_cons, List.not_mem_nil, or_false,
            not_or]
          exact ⟨h1, h2, h3, h4, h5, h6, h7, h8, h9, h10, h11, h12, h13, h14,
            h15, h16, h17, h18⟩
        exact hfall (genEq_unhandled fs lv inp tag htag hnot)

/-- C3 (corrected): on every well-shaped node (`ws`: every dict in the tree
meets its dispatch branch's obligations), `generate_code` returns a string,
at every indent level and parameter-context flag; the unrecognized-tag
fallback never fails on such trees.  The spec's unrestricted claim is false:
`C3_counterexample` exhibits a node that is well-formed for the data model
(a tagged mapping of primitives) on which the Python code raises
`AttributeError`. -/
theorem C3_totality_wellshaped (n : Node) (h : ws n = true) (lv : Nat)
    (inp : Bool) : (generate_code n lv inp).isSome = true :=
  gen_total_sized (sizeOf n) n (le_refl _) h lv inp

theorem C3_witness :
    ws intXDecl = true ∧ (generate_code intXDecl 0 false).isSome = true :=
  ⟨by decide, C3_totality_wellshaped intXDecl (by decide) 0 false⟩

/-- C3 (refutation of the spec text): the `Decl` node whose `type` field is
the primitive string `"int"` is a finite tree of tagged mappings and
primitives, yet generation fails on it (Python line 40 calls `.get` on the
string and raises `AttributeError`), refuting "for every well-formed Node
... generate terminates and returns a string". -/
theorem C3_counterexample : generate_code declBadType 0 false = none := by
  rw [show declBadType = Node.dict declBadTypeF from rfl]
  exact eval_declBadType 0 false

end Ast2C
